import Mathlib

/-!
# NoLeak vault engine — shallow embedding and verification

This file embeds the C vault engine of the NoLeak repository
(src/android/app/src/main/cpp) into Lean 4 and proves or refutes the
specification claims about it.

Modelling conventions, used consistently below:

* A byte (uint8_t) is a Nat; byte strings (uint8_t buffers) are List Nat.
  On-disk ciphertext produced by the idealized AEAD may occupy cells whose
  value exceeds 255; those cells are never byte-decoded by the engine, only
  fed back into AEAD decryption, so the length accounting stays faithful.
* Fixed 16/32-byte opaque identifiers and keys (vault_id, file_id, master
  key, salt, DEK) are abstracted to a single Nat; where the C code stores
  them as byte arrays inside a larger buffer, they occupy the correct
  number of cells via idCells / keyCells / nonceCells below.
* The AEAD (XChaCha20-Poly1305) and the KDF (Argon2id) are out of scope of
  the spec beyond their contracts, and are modelled as ideal functionalities:
  encryption appends a 16-cell tag region whose first cell binds
  (key, nonce, aad); decryption succeeds exactly when the binding matches.
  Ciphertext length = plaintext length + 16, as in the real primitive.
* Randomness (vault_random_bytes / vault_generate_id) is modelled by a
  deterministic counter supply threaded through the functions.
* malloc failure and partial read/write I/O failures are not modelled
  except where a claim is specifically about a failing write attempt, in
  which case an explicit Bool oracle injects the failure.
-/

set_option maxRecDepth 10000

namespace NoLeak

/-! ## Constants (vault_engine.h) -/

def VAULT_KEY_LEN : Nat := 32
def VAULT_SALT_LEN : Nat := 16
def VAULT_NONCE_LEN : Nat := 24
def VAULT_TAG_LEN : Nat := 16
def VAULT_ID_LEN : Nat := 16
def VAULT_HASH_LEN : Nat := 32
def VAULT_VERSION : Nat := 1
def VAULT_CHUNK_SIZE : Nat := 1024 * 1024
def VAULT_FILE_TYPE_TXT : Nat := 1
def VAULT_FILE_TYPE_IMG : Nat := 2
def VAULT_FILE_TYPE_VIDEO : Nat := 3
def VAULT_MIN_PASSPHRASE_LEN : Nat := 12
def WRAPPED_MK_SIZE : Nat := VAULT_KEY_LEN + VAULT_TAG_LEN + VAULT_NONCE_LEN
def VAULT_JOURNAL_SLOT_COUNT : Nat := 2
def VAULT_INDEX_PAD_FLAG : Nat := 0x80000000
def VAULT_INDEX_COUNT_MASK : Nat := 0x7FFFFFFF
def VAULT_INDEX_MIN_CAPACITY : Nat := 64 * 1024
def VAULT_INDEX_GROWTH_SLACK : Nat := 32 * 1024
def VAULT_KDF_MEM_LOW : Nat := 32 * 1024 * 1024
def VAULT_KDF_MEM_HIGH : Nat := 256 * 1024 * 1024
def VAULT_KDF_ITER_LOW : Nat := 3
def VAULT_KDF_ITER_HIGH : Nat := 12
def VAULT_KDF_PARALLEL_LOW : Nat := 1
def VAULT_KDF_PARALLEL_HIGH : Nat := 2

/-- Result codes of vault_engine.h, rendered as an enumeration.
VAULT_OK is Vres.ok, VAULT_ERR_INVALID_PARAM is Vres.invalidParam,
VAULT_ERR_MEMORY is Vres.memory, VAULT_ERR_IO is Vres.ioErr,
VAULT_ERR_CRYPTO is Vres.cryptoErr, VAULT_ERR_AUTH_FAIL is Vres.authFail,
VAULT_ERR_CORRUPTED is Vres.corrupted, VAULT_ERR_NOT_FOUND is Vres.notFound,
VAULT_ERR_ALREADY_EXISTS is Vres.alreadyExists, VAULT_ERR_NOT_OPEN is
Vres.notOpen, VAULT_ERR_PASSPHRASE_TOO_SHORT is Vres.passTooShort. -/
inductive Vres where
  | ok
  | invalidParam
  | memory
  | ioErr
  | cryptoErr
  | authFail
  | corrupted
  | notFound
  | alreadyExists
  | notOpen
  | passTooShort
deriving DecidableEq, Repr

instance {ε α : Type} [DecidableEq ε] [DecidableEq α] :
    DecidableEq (Except ε α) := fun x y =>
  match x, y with
  | .error a, .error b =>
      if h : a = b then isTrue (by rw [h])
      else isFalse (by intro hc; cases hc; exact h rfl)
  | .ok a, .ok b =>
      if h : a = b then isTrue (by rw [h])
      else isFalse (by intro hc; cases hc; exact h rfl)
  | .error _, .ok _ => isFalse (by intro hc; cases hc)
  | .ok _, .error _ => isFalse (by intro hc; cases hc)

/-! ## Little-endian byte encoding helpers -/

/-- Write a Nat as k little-endian byte cells (each cell < 256). -/
def natToLE : Nat → Nat → List Nat
  | 0, _ => []
  | k + 1, n => (n % 256) :: natToLE k (n / 256)

/-- Read a little-endian byte-cell list back into a Nat. -/
def leToNat : List Nat → Nat
  | [] => 0
  | b :: rest => b % 256 + 256 * leToNat rest

theorem natToLE_length (k n : Nat) : (natToLE k n).length = k := by
  induction k generalizing n with
  | zero => rfl
  | succ k ih => simp [natToLE, ih]

theorem leToNat_natToLE (k n : Nat) (h : n < 256 ^ k) :
    leToNat (natToLE k n) = n := by
  induction k generalizing n with
  | zero => simp [natToLE, leToNat]; omega
  | succ k ih =>
      simp only [natToLE, leToNat]
      rw [ih (n / 256) (by
        have hp : 256 ^ (k + 1) = 256 * 256 ^ k := by ring
        omega)]
      omega

/-- All cells of a list are bytes (< 256). -/
def isBytes (l : List Nat) : Prop := ∀ b ∈ l, b < 256

instance (l : List Nat) : Decidable (isBytes l) := by
  unfold isBytes; infer_instance

/-- Injective base-256-with-length encoding of a byte list into one Nat. -/
def encBytes : List Nat → Nat
  | [] => 0
  | b :: rest => 1 + b % 256 + 256 * encBytes rest

theorem encBytes_injOn (l₁ l₂ : List Nat) (h₁ : isBytes l₁) (h₂ : isBytes l₂)
    (h : encBytes l₁ = encBytes l₂) : l₁ = l₂ := by
  induction l₁ generalizing l₂ with
  | nil =>
      cases l₂ with
      | nil => rfl
      | cons b rest => exfalso; simp only [encBytes] at h; omega
  | cons b rest ih =>
      cases l₂ with
      | nil => exfalso; simp only [encBytes] at h; omega
      | cons c rest₂ =>
          simp only [encBytes] at h
          have hb : b < 256 := h₁ b (by simp)
          have hc : c < 256 := h₂ c (by simp)
          rw [Nat.mod_eq_of_lt hb, Nat.mod_eq_of_lt hc] at h
          have hbc : b = c := by omega
          have hrest : encBytes rest = encBytes rest₂ := by omega
          have h₁r : isBytes rest := fun x hx => h₁ x (by simp [hx])
          have h₂r : isBytes rest₂ := fun x hx => h₂ x (by simp [hx])
          rw [hbc, ih rest₂ h₁r h₂r hrest]

/-! ## Idealized AEAD (vault_crypto.c contract)

vault_aead_encrypt writes pt_len + VAULT_TAG_LEN ciphertext cells;
vault_aead_decrypt recovers the plaintext exactly when key, nonce and AAD
match, and reports authentication failure otherwise. The tag region is 16
cells whose first cell carries the ideal binding of (key, nonce, aad). -/

/-- The ideal authentication binding of one AEAD call. -/
def aeadTag (key nonce : Nat) (aad : List Nat) : Nat :=
  Nat.pair key (Nat.pair nonce (encBytes aad)) + 256

/-- Ideal AEAD encryption: ciphertext = plaintext ++ 16-cell tag region. -/
def aeadEncrypt (key nonce : Nat) (aad : List Nat) (pt : List Nat) : List Nat :=
  pt ++ aeadTag key nonce aad :: List.replicate (VAULT_TAG_LEN - 1) 0

/-- Ideal AEAD decryption: succeeds iff the tag region binds the same
(key, nonce, aad); returns the plaintext prefix. -/
def aeadDecrypt (key nonce : Nat) (aad : List Nat) (ct : List Nat) :
    Option (List Nat) :=
  if ct.length < VAULT_TAG_LEN then none
  else
    match ct.drop (ct.length - VAULT_TAG_LEN) with
    | [] => none
    | t :: _ =>
        if t = aeadTag key nonce aad then some (ct.take (ct.length - VAULT_TAG_LEN))
        else none

theorem aeadEncrypt_length (key nonce : Nat) (aad pt : List Nat) :
    (aeadEncrypt key nonce aad pt).length = pt.length + VAULT_TAG_LEN := by
  simp [aeadEncrypt, VAULT_TAG_LEN]

theorem aeadDecrypt_encrypt (key nonce : Nat) (aad pt : List Nat) :
    aeadDecrypt key nonce aad (aeadEncrypt key nonce aad pt) = some pt := by
  have hlen := aeadEncrypt_length key nonce aad pt
  unfold aeadDecrypt
  rw [hlen]
  have h16 : ¬(pt.length + VAULT_TAG_LEN < VAULT_TAG_LEN) := by omega
  rw [if_neg h16]
  have hdrop : pt.length + VAULT_TAG_LEN - VAULT_TAG_LEN = pt.length := by omega
  rw [hdrop]
  unfold aeadEncrypt
  rw [List.drop_left, List.take_left]
  simp

theorem aeadDecrypt_wrong_key (key key' nonce nonce' : Nat)
    (aad aad' pt : List Nat) (h : key ≠ key') :
    aeadDecrypt key' nonce' aad' (aeadEncrypt key nonce aad pt) = none := by
  have hlen := aeadEncrypt_length key nonce aad pt
  unfold aeadDecrypt
  rw [hlen]
  have h16 : ¬(pt.length + VAULT_TAG_LEN < VAULT_TAG_LEN) := by omega
  rw [if_neg h16]
  have hdrop : pt.length + VAULT_TAG_LEN - VAULT_TAG_LEN = pt.length := by omega
  rw [hdrop]
  unfold aeadEncrypt
  rw [List.drop_left]
  have htag : aeadTag key nonce aad ≠ aeadTag key' nonce' aad' := by
    unfold aeadTag
    intro hEq
    have h2 : Nat.pair key (Nat.pair nonce (encBytes aad)) =
        Nat.pair key' (Nat.pair nonce' (encBytes aad')) := by omega
    exact h (Nat.pair_eq_pair.mp h2).1
  simp [htag]

/-- Cells holding a 24-byte nonce buffer: the abstract nonce value in the
first cell, the remaining 23 cells zero. -/
def nonceCells (n : Nat) : List Nat :=
  n :: List.replicate (VAULT_NONCE_LEN - 1) 0

/-- Cells holding a 32-byte key buffer. -/
def keyCells (k : Nat) : List Nat :=
  k :: List.replicate (VAULT_KEY_LEN - 1) 0

theorem nonceCells_length (n : Nat) : (nonceCells n).length = VAULT_NONCE_LEN := by
  simp [nonceCells, VAULT_NONCE_LEN]

theorem keyCells_length (k : Nat) : (keyCells k).length = VAULT_KEY_LEN := by
  simp [keyCells, VAULT_KEY_LEN]

/-- Serialize a 16-byte identifier (vault_id / file_id) into byte cells. -/
def idCells (x : Nat) : List Nat := natToLE VAULT_ID_LEN x

theorem idCells_length (x : Nat) : (idCells x).length = VAULT_ID_LEN := by
  simp [idCells, natToLE_length]

/-- The packed vault_aad_t record:
vault_id[16] ++ file_id[16] ++ chunk_index:u32 ++ format_version:u32. -/
def aadBytes (vaultId fileId chunkIndex : Nat) : List Nat :=
  idCells vaultId ++ idCells fileId ++ natToLE 4 chunkIndex ++ natToLE 4 VAULT_VERSION

/-- Ideal Argon2id: the derived KEK is an injective function of
(passphrase bytes, salt). -/
def vault_kdf_derive_with_params (pass : List Nat) (salt : Nat) : Nat :=
  Nat.pair (encBytes pass) salt

theorem kdf_inj_pass (p₁ p₂ : List Nat) (salt : Nat)
    (h₁ : isBytes p₁) (h₂ : isBytes p₂) (h : p₁ ≠ p₂) :
    vault_kdf_derive_with_params p₁ salt ≠ vault_kdf_derive_with_params p₂ salt := by
  unfold vault_kdf_derive_with_params
  intro hEq
  have := (Nat.pair_eq_pair.mp hEq).1
  exact h (encBytes_injOn p₁ p₂ h₁ h₂ this)

/-- Deterministic supply standing in for vault_random_bytes /
vault_generate_id: fresh value and advanced supply. -/
def randFresh (rng : Nat) : Nat × Nat := (rng, rng + 1)

/-- vault_aead_decrypt of vault_crypto.c: INVALID_PARAM when the ciphertext
is shorter than the tag, AUTH_FAIL when the tag does not verify. -/
def vault_aead_decrypt (key nonce : Nat) (aad ct : List Nat) :
    Except Vres (List Nat) :=
  if ct.length < VAULT_TAG_LEN then .error .invalidParam
  else
    match aeadDecrypt key nonce aad ct with
    | some pt => .ok pt
    | none => .error .authFail

theorem vault_aead_decrypt_encrypt (key nonce : Nat) (aad pt : List Nat) :
    vault_aead_decrypt key nonce aad (aeadEncrypt key nonce aad pt) = .ok pt := by
  unfold vault_aead_decrypt
  rw [aeadEncrypt_length]
  rw [if_neg (by omega)]
  rw [aeadDecrypt_encrypt]

/-! ## Data model (vault_engine.h) -/

/-- One chunk record of a chunked entry: (offset:u64, length:u32, nonce[24]). -/
structure VaultChunk where
  offset : Nat
  length : Nat
  nonce : Nat
deriving DecidableEq, Repr

instance : Inhabited VaultChunk := ⟨⟨0, 0, 0⟩⟩

/-- vault_entry_t. The C struct carries chunk_count and a chunks pointer that
every code path keeps in sync; here chunk_count is chunks.length. Strings
(name, mime) are byte lists, as in C. -/
structure VaultEntry where
  file_id : Nat
  type : Nat
  created_at : Nat
  name : List Nat
  mime : List Nat
  size : Nat
  wrapped_dek : List Nat
  data_offset : Nat
  data_length : Nat
  chunks : List VaultChunk
deriving DecidableEq, Repr

instance : Inhabited VaultEntry :=
  ⟨{ file_id := 0, type := 0, created_at := 0, name := [], mime := [],
     size := 0, wrapped_dek := [], data_offset := 0, data_length := 0,
     chunks := [] }⟩

/-- chunk_count of an entry. -/
def VaultEntry.chunk_count (e : VaultEntry) : Nat := e.chunks.length

/-- vault_state_t, the process-wide handle. Opaque 16/32-byte values are
single Nats (0 = zeroed); path is none when released. -/
structure VaultState where
  is_open : Bool
  path : Option Nat
  vault_id : Nat
  master_key : Nat
  salt : Nat
  kdf_mem : Nat
  kdf_iter : Nat
  kdf_parallel : Nat
  entries : List VaultEntry
  total_size : Nat
  free_space : Nat
  wrapped_mk : List Nat
  wrapped_mk_len : Nat
  header_is_journal : Bool
  header_seq : Nat
  header_slot_size : Nat
  header_slot_count : Nat
  header_size : Nat
  index_capacity : Nat
  index_is_padded : Bool
deriving DecidableEq, Repr

/-- entry_count of the handle. -/
def VaultState.entry_count (g : VaultState) : Nat := g.entries.length

/-- The entry-lookup loop shared by read/delete/rename: first entry whose
file_id matches. -/
def findEntry (g : VaultState) (fileId : Nat) : Option VaultEntry :=
  g.entries.find? (fun e => e.file_id = fileId)

/-- Contiguous byte range of the container file. -/
def listSlice (l : List Nat) (off len : Nat) : List Nat :=
  (l.drop off).take len

/-- load_blob of vault_index.c: pread of length bytes at offset; a short
read is VAULT_ERR_IO, length 0 is INVALID_PARAM. -/
def load_blob (file : List Nat) (offset length : Nat) :
    Except Vres (List Nat) :=
  if length = 0 then .error .invalidParam
  else if offset + length ≤ file.length then .ok (listSlice file offset length)
  else .error .ioErr

/-- unwrap_dek of vault_index.c: missing or short wrapped_dek is CORRUPTED;
otherwise AEAD-decrypt under the master key with AAD (vault_id, file_id, 0)
and return the DEK. -/
def unwrap_dek (g : VaultState) (entry : VaultEntry) : Except Vres Nat :=
  if entry.wrapped_dek.length < VAULT_NONCE_LEN + VAULT_TAG_LEN then
    .error .corrupted
  else
    let nonce := entry.wrapped_dek.headD 0
    let ct := entry.wrapped_dek.drop VAULT_NONCE_LEN
    match vault_aead_decrypt g.master_key nonce
        (aadBytes g.vault_id entry.file_id 0) ct with
    | .error e => .error e
    | .ok pt => .ok (pt.headD 0)

/-- vault_read_file of vault_index.c. -/
def vault_read_file (g : VaultState) (file : List Nat) (fileId : Nat) :
    Vres × Option (List Nat) :=
  if ¬g.is_open then (.notOpen, none)
  else
    match findEntry g fileId with
    | none => (.notFound, none)
    | some entry =>
        if entry.chunk_count > 0 then (.invalidParam, none)
        else
          match unwrap_dek g entry with
          | .error e => (e, none)
          | .ok dek =>
              match load_blob file entry.data_offset entry.data_length with
              | .error e => (e, none)
              | .ok blob =>
                  if entry.data_length < VAULT_NONCE_LEN + VAULT_TAG_LEN then
                    (.corrupted, none)
                  else
                    let nonce := blob.headD 0
                    let ct := blob.drop VAULT_NONCE_LEN
                    match vault_aead_decrypt dek nonce
                        (aadBytes g.vault_id entry.file_id 0) ct with
                    | .error e => (e, none)
                    | .ok pt => (.ok, some pt)

/-- vault_read_chunk of vault_index.c. Note the code order: a zero
chunk_count is INVALID_PARAM, an out-of-range index is NOT_FOUND. -/
def vault_read_chunk (g : VaultState) (file : List Nat) (fileId chunk_idx : Nat) :
    Vres × Option (List Nat) :=
  if ¬g.is_open then (.notOpen, none)
  else
    match findEntry g fileId with
    | none => (.notFound, none)
    | some entry =>
        if entry.chunk_count = 0 then (.invalidParam, none)
        else if chunk_idx ≥ entry.chunk_count then (.notFound, none)
        else
          match unwrap_dek g entry with
          | .error e => (e, none)
          | .ok dek =>
              let chunk := entry.chunks.getD chunk_idx default
              match load_blob file chunk.offset chunk.length with
              | .error e => (e, none)
              | .ok ciphertext =>
                  if chunk.length < VAULT_TAG_LEN then (.corrupted, none)
                  else
                    match vault_aead_decrypt dek chunk.nonce
                        (aadBytes g.vault_id entry.file_id chunk_idx)
                        ciphertext with
                    | .error e => (e, none)
                    | .ok pt => (.ok, some pt)

/-! ## Compaction (vault_compact / compute_used_space, vault_index.c) -/

/-- compute_used_space: largest end offset of any live blob or chunk. -/
def compute_used_space (g : VaultState) : Nat :=
  g.entries.foldl
    (fun acc entry =>
      if entry.chunk_count > 0 then
        entry.chunks.foldl (fun m c => max m (c.offset + c.length)) acc
      else max acc (entry.data_offset + entry.data_length))
    0

/-- The branch structure of vault_compact up to the point where it invokes
rebuild_container: true exactly when the code reaches the rebuild (the
clone/load/rebuild sequence), false when it returns VAULT_OK as a no-op.
The rebuild itself (a full container rewrite via vault_save_container) is
not re-modelled here: claim C7 is about when it is triggered. -/
def vault_compact_rebuilds (g : VaultState) : Bool :=
  if ¬g.is_open then false
  else if g.total_size = 0 then false
  else
    let used := compute_used_space g
    if used = 0 then false
    else
      let free := if g.total_size > used then g.total_size - used else 0
      ¬(free * 100 < g.total_size * 25)

/-- A closed handle with every field zeroed, used as the base for concrete
test states. -/
def baseState : VaultState where
  is_open := false
  path := none
  vault_id := 0
  master_key := 0
  salt := 0
  kdf_mem := 0
  kdf_iter := 0
  kdf_parallel := 0
  entries := []
  total_size := 0
  free_space := 0
  wrapped_mk := []
  wrapped_mk_len := 0
  header_is_journal := false
  header_seq := 0
  header_slot_size := 0
  header_slot_count := 0
  header_size := 0
  index_capacity := 0
  index_is_padded := false

/-! ## Claim C6 — read_chunk error codes -/

/-- Concrete state for C6: one chunked entry with a single chunk. -/
def c6g : VaultState :=
  { baseState with
    is_open := true
    entries := [{ file_id := 1, type := 3, created_at := 0, name := [97],
                  mime := [], size := 5, wrapped_dek := [],
                  data_offset := 0, data_length := 0,
                  chunks := [⟨100, 21, 7⟩] }] }

/-- C6 counterexample: on an open vault whose entry has chunk_count = 1,
vault_read_chunk with idx = 1 (= chunk_count, out of bounds) returns
NOT_FOUND, not the invalid-param error the claim states. -/
theorem c6_counterexample :
    (findEntry c6g 1).isSome = true ∧
    (vault_read_chunk c6g [] 1 1).1 = Vres.notFound ∧
    Vres.notFound ≠ Vres.invalidParam := by decide

/-- C6 (amended): with an entry present, chunk_count = 0 gives invalid-param
and an out-of-bounds index on a chunked entry gives not-found. -/
theorem c6_read_chunk_errors (g : VaultState) (file : List Nat)
    (fileId idx : Nat) (entry : VaultEntry) (hopen : g.is_open = true)
    (hfind : findEntry g fileId = some entry) :
    (entry.chunk_count = 0 →
      (vault_read_chunk g file fileId idx).1 = Vres.invalidParam) ∧
    (entry.chunk_count ≠ 0 → idx ≥ entry.chunk_count →
      (vault_read_chunk g file fileId idx).1 = Vres.notFound) := by
  unfold vault_read_chunk
  rw [hopen, hfind]
  constructor
  · intro hzero
    simp [hzero]
  · intro hnz hoob
    simp [hnz, hoob]

/-- C6 amended-theorem witness at the concrete C6 state. -/
theorem c6_read_chunk_errors_witness :
    c6g.is_open = true ∧ findEntry c6g 1 = some (c6g.entries.headD default) ∧
    ((c6g.entries.headD default).chunk_count = 0 →
      (vault_read_chunk c6g [] 1 1).1 = Vres.invalidParam) ∧
    ((c6g.entries.headD default).chunk_count ≠ 0 →
      1 ≥ (c6g.entries.headD default).chunk_count →
      (vault_read_chunk c6g [] 1 1).1 = Vres.notFound) :=
  ⟨by decide, by decide,
    c6_read_chunk_errors c6g [] 1 1 (c6g.entries.headD default)
      (by decide) (by decide)⟩

/-! ## Claim C7 — compaction trigger -/

/-- Concrete state for C7: an open vault whose every entry has been
deleted (empty entry list) but whose data region still holds orphan bytes
(total_size = 1000). -/
def c7g : VaultState :=
  { baseState with is_open := true, total_size := 1000 }

/-- C7 counterexample: with every entry deleted, orphan space is the whole
container (well over 25%), yet vault_compact takes the early used_space == 0
return and performs no rebuild. -/
theorem c7_counterexample :
    c7g.is_open = true ∧
    compute_used_space c7g = 0 ∧
    (c7g.total_size - compute_used_space c7g) * 100 ≥ c7g.total_size * 25 ∧
    vault_compact_rebuilds c7g = false := by decide

/-- C7 (amended): on an open vault, vault_compact rebuilds exactly when
total_size and the used space are both nonzero and the orphan space
(total_size − used) is at least 25% of total_size; when used space is 0
(every entry deleted) it is a no-op. -/
theorem c7_compact_trigger (g : VaultState) (hopen : g.is_open = true) :
    vault_compact_rebuilds g = true ↔
      (g.total_size ≠ 0 ∧ compute_used_space g ≠ 0 ∧
        (g.total_size - compute_used_space g) * 100 ≥ g.total_size * 25) := by
  unfold vault_compact_rebuilds
  rw [hopen]
  simp only [Bool.not_true, Bool.false_eq_true, if_false]
  by_cases h1 : g.total_size = 0
  · simp [h1]
  · rw [if_neg h1]
    by_cases h2 : compute_used_space g = 0
    · simp [h2]
    · rw [if_neg h2]
      have hfree : (if g.total_size > compute_used_space g then
          g.total_size - compute_used_space g else 0) =
          g.total_size - compute_used_space g := by
        by_cases h3 : g.total_size > compute_used_space g
        · rw [if_pos h3]
        · rw [if_neg h3]; omega
      rw [hfree]
      constructor
      · intro h
        refine ⟨h1, h2, ?_⟩
        have := of_decide_eq_true h
        omega
      · intro ⟨_, _, h⟩
        exact decide_eq_true (by omega)

/-- A state with one live blob (used space 300) and orphan space 700 out of
total 1000. -/
def c7gLive : VaultState :=
  { baseState with
    is_open := true
    total_size := 1000
    entries := [{ file_id := 2, type := 1, created_at := 0, name := [98],
                  mime := [], size := 10, wrapped_dek := [],
                  data_offset := 100, data_length := 200, chunks := [] }] }

/-- C7 amended-theorem witness: a state with one live blob and enough orphan
space, where the rebuild triggers. -/
theorem c7_compact_trigger_witness :
    c7gLive.is_open = true ∧
    (vault_compact_rebuilds c7gLive = true ↔
      (c7gLive.total_size ≠ 0 ∧ compute_used_space c7gLive ≠ 0 ∧
        (c7gLive.total_size - compute_used_space c7gLive) * 100 ≥
          c7gLive.total_size * 25)) :=
  ⟨by decide, c7_compact_trigger c7gLive (by decide)⟩

/-! ## Header journal (vault_container.c)

The two-slot A/B header. pread of one fixed-size slot is modelled as
receiving the parsed slot record; the CRC is computed over the serialized
slot bytes before the crc field (offsetof(vault_journal_slot_t, crc)),
as in journal_slot_crc. -/

/-- vault_journal_slot_t. wrapped_mk occupies a fixed 72-byte array. -/
structure JournalSlot where
  seq : Nat
  vault_id : Nat
  kdf_salt : Nat
  kdf_mem : Nat
  kdf_iter : Nat
  kdf_parallel : Nat
  wrapped_mk_len : Nat
  wrapped_mk : List Nat
  crc : Nat
deriving DecidableEq, Repr

instance : Inhabited JournalSlot := ⟨⟨0, 0, 0, 0, 0, 0, 0, [], 0⟩⟩

/-- One bit-iteration of CRC-32/IEEE:
crc = (crc >> 1) ^ (0xEDB88320 & -(crc & 1)). -/
def crc32Step (crc : Nat) : Nat :=
  if crc % 2 = 1 then (crc / 2) ^^^ 0xEDB88320 else crc / 2

/-- One byte of calculate_crc32 (8 inner iterations). Cell values are
reduced mod 256, matching the uint8_t data the C routine consumes. -/
def crc32Byte (crc b : Nat) : Nat :=
  crc32Step (crc32Step (crc32Step (crc32Step (crc32Step (crc32Step
    (crc32Step (crc32Step (crc ^^^ (b % 256)))))))))

/-- calculate_crc32 of vault_container.c (init 0xFFFFFFFF, reflected poly
0xEDB88320, final XOR 0xFFFFFFFF). -/
def calculate_crc32 (data : List Nat) : Nat :=
  (data.foldl crc32Byte 0xFFFFFFFF) ^^^ 0xFFFFFFFF

/-- The serialized slot bytes that precede the crc field (124 bytes). The
wrapped_mk array is padded/truncated to its fixed 72-cell size. -/
def slotBytesBeforeCrc (s : JournalSlot) : List Nat :=
  natToLE 4 s.seq ++ idCells s.vault_id ++ natToLE VAULT_SALT_LEN s.kdf_salt ++
  natToLE 4 s.kdf_mem ++ natToLE 4 s.kdf_iter ++ natToLE 4 s.kdf_parallel ++
  natToLE 4 s.wrapped_mk_len ++
  (s.wrapped_mk.take WRAPPED_MK_SIZE ++
    List.replicate (WRAPPED_MK_SIZE - s.wrapped_mk.length) 0)

/-- journal_slot_crc. -/
def journal_slot_crc (s : JournalSlot) : Nat :=
  calculate_crc32 (slotBytesBeforeCrc s)

/-- A slot whose crc field is stamped with the CRC of its own serialized
prefix (the crc field itself is outside the CRC's input). -/
def mkStampedSlot (seq vaultId salt kdfMem kdfIter kdfParallel mkLen : Nat)
    (wrappedMk : List Nat) : JournalSlot :=
  { seq := seq
    vault_id := vaultId
    kdf_salt := salt
    kdf_mem := kdfMem
    kdf_iter := kdfIter
    kdf_parallel := kdfParallel
    wrapped_mk_len := mkLen
    wrapped_mk := wrappedMk
    crc := journal_slot_crc
      ⟨seq, vaultId, salt, kdfMem, kdfIter, kdfParallel, mkLen, wrappedMk, 0⟩ }

theorem journal_slot_crc_mk (a b c d e f g : Nat) (w : List Nat) (cr : Nat) :
    journal_slot_crc ⟨a, b, c, d, e, f, g, w, cr⟩ =
      journal_slot_crc ⟨a, b, c, d, e, f, g, w, 0⟩ := rfl

theorem mkStampedSlot_crc (a b c d e f g : Nat) (w : List Nat) :
    (mkStampedSlot a b c d e f g w).crc =
      journal_slot_crc (mkStampedSlot a b c d e f g w) := by
  unfold mkStampedSlot
  exact (journal_slot_crc_mk a b c d e f g w _).symm

/-- journal_fill_slot: populate a slot with the fixed 72-byte wrapped-MK
length and stamp its CRC (seq 0 is bumped to 1). -/
def journal_fill_slot (seq vaultId salt kdfMem kdfIter kdfParallel : Nat)
    (wrappedMk : List Nat) : JournalSlot :=
  mkStampedSlot (if seq = 0 then 1 else seq) vaultId salt kdfMem kdfIter
    kdfParallel WRAPPED_MK_SIZE wrappedMk

/-- journal_read_slot validation (the pread itself is modelled as receiving
the slot record): seq == 0 is NOT_FOUND (empty), a wrapped_mk_len other
than 72 or a CRC mismatch is CORRUPTED. -/
def journal_read_slot (slot : JournalSlot) : Except Vres JournalSlot :=
  if slot.seq = 0 then .error .notFound
  else if slot.wrapped_mk_len ≠ WRAPPED_MK_SIZE then .error .corrupted
  else if slot.crc ≠ journal_slot_crc slot then .error .corrupted
  else .ok slot

/-- The conditions under which journal_read_slot accepts a slot. -/
def slotOk (s : JournalSlot) : Prop :=
  s.seq ≠ 0 ∧ s.wrapped_mk_len = WRAPPED_MK_SIZE ∧ s.crc = journal_slot_crc s

instance (s : JournalSlot) : Decidable (slotOk s) := by
  unfold slotOk; infer_instance

/-- The validity condition the claim describes: only seq != 0 and a
matching CRC. -/
def claimSlotValid (s : JournalSlot) : Prop :=
  s.seq ≠ 0 ∧ s.crc = journal_slot_crc s

instance (s : JournalSlot) : Decidable (claimSlotValid s) := by
  unfold claimSlotValid; infer_instance

theorem journal_read_slot_of_ok (s : JournalSlot) (h : slotOk s) :
    journal_read_slot s = .ok s := by
  obtain ⟨h1, h2, h3⟩ := h
  unfold journal_read_slot
  rw [if_neg h1, if_neg (by simp [h2]), if_neg (by simp [h3])]

theorem journal_read_slot_of_not_ok (s : JournalSlot) (h : ¬slotOk s) :
    ∃ e, journal_read_slot s = .error e := by
  unfold journal_read_slot
  unfold slotOk at h
  by_cases h1 : s.seq = 0
  · exact ⟨.notFound, by rw [if_pos h1]⟩
  · rw [if_neg h1]
    by_cases h2 : s.wrapped_mk_len = WRAPPED_MK_SIZE
    · rw [if_neg (by simp [h2])]
      by_cases h3 : s.crc = journal_slot_crc s
      · exact absurd ⟨h1, h2, h3⟩ h
      · exact ⟨.corrupted, by rw [if_pos (by simp [h3])]⟩
    · exact ⟨.corrupted, by rw [if_pos (by simp [h2])]⟩

/-- The slot-scanning loop of journal_select_slot: keeps the best
(largest-seq) slot accepted so far, strict inequality, first wins ties. -/
def selectLoop : List JournalSlot → Nat → Option (JournalSlot × Nat) →
    Option (JournalSlot × Nat)
  | [], _, best => best
  | slot :: rest, i, best =>
      match journal_read_slot slot with
      | .error _ => selectLoop rest (i + 1) best
      | .ok s =>
          match best with
          | none => selectLoop rest (i + 1) (some (s, i))
          | some (b, bi) =>
              if s.seq > b.seq then selectLoop rest (i + 1) (some (s, i))
              else selectLoop rest (i + 1) (some (b, bi))

/-- journal_select_slot: CORRUPTED when no slot validates, else the best
slot and its index. -/
def journal_select_slot (slots : List JournalSlot) :
    Except Vres (JournalSlot × Nat) :=
  match selectLoop slots 0 none with
  | none => .error .corrupted
  | some r => .ok r

theorem selectLoop_cons_err (slot : JournalSlot) (rest : List JournalSlot)
    (i : Nat) (best : Option (JournalSlot × Nat)) (e : Vres)
    (h : journal_read_slot slot = .error e) :
    selectLoop (slot :: rest) i best = selectLoop rest (i + 1) best := by
  simp only [selectLoop, h]

theorem selectLoop_cons_ok_none (slot : JournalSlot) (rest : List JournalSlot)
    (i : Nat) (s : JournalSlot) (h : journal_read_slot slot = .ok s) :
    selectLoop (slot :: rest) i none = selectLoop rest (i + 1) (some (s, i)) := by
  simp only [selectLoop, h]

theorem selectLoop_cons_ok_some (slot : JournalSlot) (rest : List JournalSlot)
    (i : Nat) (s b : JournalSlot) (bi : Nat)
    (h : journal_read_slot slot = .ok s) :
    selectLoop (slot :: rest) i (some (b, bi)) =
      if s.seq > b.seq then selectLoop rest (i + 1) (some (s, i))
      else selectLoop rest (i + 1) (some (b, bi)) := by
  simp only [selectLoop, h]

theorem journal_read_slot_ok_elim (slot s : JournalSlot)
    (h : journal_read_slot slot = .ok s) : s = slot ∧ slotOk slot := by
  by_cases hok : slotOk slot
  · rw [journal_read_slot_of_ok slot hok] at h
    cases h
    exact ⟨rfl, hok⟩
  · obtain ⟨e, he⟩ := journal_read_slot_of_not_ok slot hok
    rw [he] at h
    cases h

theorem journal_read_slot_err_elim (slot : JournalSlot) (e : Vres)
    (h : journal_read_slot slot = .error e) : ¬slotOk slot := by
  intro hok
  rw [journal_read_slot_of_ok slot hok] at h
  cases h

theorem selectLoop_spec (slots : List JournalSlot) (i0 : Nat)
    (best : Option (JournalSlot × Nat)) :
    (selectLoop slots i0 best = none → best = none ∧ ∀ s ∈ slots, ¬slotOk s) ∧
    (∀ s i, selectLoop slots i0 best = some (s, i) →
      (best = some (s, i) ∨ (s ∈ slots ∧ slotOk s)) ∧
      (∀ t ∈ slots, slotOk t → t.seq ≤ s.seq) ∧
      (∀ b bi, best = some (b, bi) → b.seq ≤ s.seq)) := by
  induction slots generalizing i0 best with
  | nil =>
      refine ⟨fun h => ⟨h, by simp⟩, fun s i h => ?_⟩
      simp only [selectLoop] at h
      refine ⟨Or.inl h, by simp, fun b bi hb => ?_⟩
      rw [h] at hb
      simp only [Option.some.injEq, Prod.mk.injEq] at hb
      rw [← hb.1]
  | cons slot rest ih =>
      rcases hread : journal_read_slot slot with e | s0
      · -- the slot is rejected: the loop skips it
        have hnotok := journal_read_slot_err_elim slot e hread
        constructor
        · intro h
          rw [selectLoop_cons_err slot rest i0 best e hread] at h
          have := (ih (i0 + 1) best).1 h
          refine ⟨this.1, fun t ht => ?_⟩
          rcases List.mem_cons.mp ht with rfl | ht2
          · exact hnotok
          · exact this.2 t ht2
        · intro s i h
          rw [selectLoop_cons_err slot rest i0 best e hread] at h
          have := (ih (i0 + 1) best).2 s i h
          refine ⟨?_, ?_, this.2.2⟩
          · rcases this.1 with hb | ⟨hmem, hok⟩
            · exact Or.inl hb
            · exact Or.inr ⟨List.mem_cons_of_mem _ hmem, hok⟩
          · intro t ht hok
            rcases List.mem_cons.mp ht with rfl | ht2
            · exact absurd hok hnotok
            · exact this.2.1 t ht2 hok
      · -- the slot is accepted
        have helim := journal_read_slot_ok_elim slot s0 hread
        rw [helim.1] at hread
        have hok0 : slotOk slot := helim.2
        constructor
        · intro h
          cases best with
          | none =>
              rw [selectLoop_cons_ok_none slot rest i0 slot hread] at h
              have := ((ih (i0 + 1) (some (slot, i0))).1 h).1
              cases this
          | some p =>
              rcases p with ⟨b, bi⟩
              rw [selectLoop_cons_ok_some slot rest i0 slot b bi hread] at h
              by_cases hgt : slot.seq > b.seq
              · rw [if_pos hgt] at h
                have := ((ih (i0 + 1) (some (slot, i0))).1 h).1
                cases this
              · rw [if_neg hgt] at h
                have := ((ih (i0 + 1) (some (b, bi))).1 h).1
                cases this
        · intro s i h
          cases best with
          | none =>
              rw [selectLoop_cons_ok_none slot rest i0 slot hread] at h
              have := (ih (i0 + 1) (some (slot, i0))).2 s i h
              refine ⟨?_, ?_, fun b bi hb => by cases hb⟩
              · rcases this.1 with hb | ⟨hmem, hok⟩
                · simp only [Option.some.injEq, Prod.mk.injEq] at hb
                  exact Or.inr ⟨by rw [← hb.1]; exact List.mem_cons_self _ _,
                    by rw [← hb.1]; exact hok0⟩
                · exact Or.inr ⟨List.mem_cons_of_mem _ hmem, hok⟩
              · intro t ht htok
                rcases List.mem_cons.mp ht with rfl | ht2
                · exact this.2.2 t i0 rfl
                · exact this.2.1 t ht2 htok
          | some p =>
              rcases p with ⟨b, bi⟩
              rw [selectLoop_cons_ok_some slot rest i0 slot b bi hread] at h
              by_cases hgt : slot.seq > b.seq
              · rw [if_pos hgt] at h
                have := (ih (i0 + 1) (some (slot, i0))).2 s i h
                refine ⟨?_, ?_, ?_⟩
                · rcases this.1 with hb2 | ⟨hmem, hok⟩
                  · simp only [Option.some.injEq, Prod.mk.injEq] at hb2
                    exact Or.inr ⟨by rw [← hb2.1]; exact List.mem_cons_self _ _,
                      by rw [← hb2.1]; exact hok0⟩
                  · exact Or.inr ⟨List.mem_cons_of_mem _ hmem, hok⟩
                · intro t ht htok
                  rcases List.mem_cons.mp ht with rfl | ht2
                  · exact this.2.2 t i0 rfl
                  · exact this.2.1 t ht2 htok
                · intro b2 bi2 hb2
                  simp only [Option.some.injEq, Prod.mk.injEq] at hb2
                  have hs0le := this.2.2 slot i0 rfl
                  rw [← hb2.1]
                  omega
              · rw [if_neg hgt] at h
                have := (ih (i0 + 1) (some (b, bi))).2 s i h
                refine ⟨?_, ?_, ?_⟩
                · rcases this.1 with hb2 | ⟨hmem, hok⟩
                  · exact Or.inl hb2
                  · exact Or.inr ⟨List.mem_cons_of_mem _ hmem, hok⟩
                · intro t ht htok
                  rcases List.mem_cons.mp ht with rfl | ht2
                  · have hble := this.2.2 b bi rfl
                    omega
                  · exact this.2.1 t ht2 htok
                · intro b2 bi2 hb2
                  simp only [Option.some.injEq, Prod.mk.injEq] at hb2
                  have hble := this.2.2 b bi rfl
                  rw [← hb2.1]
                  omega

theorem selectLoop_none_of_all (slots : List JournalSlot) (i : Nat)
    (h : ∀ s ∈ slots, ¬slotOk s) : selectLoop slots i none = none := by
  induction slots generalizing i with
  | nil => rfl
  | cons slot rest ih =>
      obtain ⟨e, he⟩ := journal_read_slot_of_not_ok slot (h slot (by simp))
      rw [selectLoop_cons_err slot rest i none e he]
      exact ih (i + 1) (fun s hs => h s (List.mem_cons_of_mem _ hs))

/-! ## Claim C3 — journal slot selection -/

/-- 72 zero cells standing for a wrapped-MK array. -/
def c3WrappedMk : List Nat := List.replicate WRAPPED_MK_SIZE 0

/-- A fully valid slot with seq 1. -/
def c3SlotA : JournalSlot := journal_fill_slot 1 0 0 0 0 0 c3WrappedMk

/-- A slot with seq 5 whose CRC is correct over its bytes but whose
wrapped_mk_len field is 64 instead of 72. -/
def c3SlotB : JournalSlot := mkStampedSlot 5 0 0 0 0 0 64 c3WrappedMk

theorem c3SlotA_ok : slotOk c3SlotA :=
  ⟨by decide, rfl, mkStampedSlot_crc 1 0 0 0 0 0 WRAPPED_MK_SIZE c3WrappedMk⟩

theorem c3_read_slotA : journal_read_slot c3SlotA = .ok c3SlotA :=
  journal_read_slot_of_ok c3SlotA c3SlotA_ok

theorem c3_read_slotB : journal_read_slot c3SlotB = .error .corrupted := by
  unfold journal_read_slot
  rw [if_neg (by decide), if_pos (by decide)]

/-- C3 counterexample: slot B has seq != 0 and a matching CRC, so under the
claim it is the valid slot with the largest seq (5) and must be chosen; the
code discards it because wrapped_mk_len != 72 and selects slot A (seq 1). -/
theorem c3_counterexample :
    journal_select_slot [c3SlotA, c3SlotB] = .ok (c3SlotA, 0) ∧
    claimSlotValid c3SlotB ∧ c3SlotB.seq = 5 ∧ c3SlotA.seq = 1 := by
  refine ⟨?_, ⟨by decide, mkStampedSlot_crc 5 0 0 0 0 0 64 c3WrappedMk⟩, rfl, rfl⟩
  unfold journal_select_slot
  rw [selectLoop_cons_ok_none c3SlotA [c3SlotB] 0 c3SlotA c3_read_slotA]
  rw [selectLoop_cons_err c3SlotB [] 1 (some (c3SlotA, 0)) .corrupted c3_read_slotB]
  rfl

/-- C3 (amended): a slot is discarded when its seq is 0, its CRC mismatches,
or its wrapped_mk_len is not 72; among the remaining slots the one with the
largest seq is chosen, and open fails with corrupted exactly when no slot
validates. -/
theorem c3_select_slot (slots : List JournalSlot) :
    ((∀ s ∈ slots, ¬slotOk s) ↔ journal_select_slot slots = .error .corrupted) ∧
    (∀ s i, journal_select_slot slots = .ok (s, i) →
      slotOk s ∧ s ∈ slots ∧ ∀ t ∈ slots, slotOk t → t.seq ≤ s.seq) := by
  constructor
  · constructor
    · intro h
      unfold journal_select_slot
      rw [selectLoop_none_of_all slots 0 h]
    · intro h
      unfold journal_select_slot at h
      rcases hloop : selectLoop slots 0 none with _ | r
      · exact ((selectLoop_spec slots 0 none).1 hloop).2
      · rw [hloop] at h
        cases h
  · intro s i h
    unfold journal_select_slot at h
    rcases hloop : selectLoop slots 0 none with _ | r
    · rw [hloop] at h
      cases h
    · rw [hloop] at h
      cases h
      have := (selectLoop_spec slots 0 none).2 s i hloop
      rcases this.1 with hb | ⟨hmem, hok⟩
      · cases hb
      · exact ⟨hok, hmem, this.2.1⟩

/-- C3 amended-theorem witness at the concrete two-slot configuration. -/
theorem c3_select_slot_witness :
    ((∀ s ∈ [c3SlotA, c3SlotB], ¬slotOk s) ↔
      journal_select_slot [c3SlotA, c3SlotB] = .error .corrupted) ∧
    (∀ s i, journal_select_slot [c3SlotA, c3SlotB] = .ok (s, i) →
      slotOk s ∧ s ∈ [c3SlotA, c3SlotB] ∧
        ∀ t ∈ [c3SlotA, c3SlotB], slotOk t → t.seq ≤ s.seq) :=
  c3_select_slot [c3SlotA, c3SlotB]

/-! ## Journal superblock (vault_container.c) -/

/-- The 8-byte journal magic "VAULTJ1" with its terminating NUL. -/
def VAULT_JOURNAL_MAGIC : List Nat := [86, 65, 85, 76, 84, 74, 49, 0]

/-- The 8-byte legacy magic "VAULTv1" with its terminating NUL. -/
def VAULT_MAGIC : List Nat := [86, 65, 85, 76, 84, 118, 49, 0]

/-- sizeof(vault_journal_slot_t): 4+16+16+4+4+4+4+72+4 packed bytes. -/
def SIZEOF_JOURNAL_SLOT : Nat := 128

/-- vault_journal_super_t. -/
structure JournalSuper where
  magic : List Nat
  version : Nat
  slot_size : Nat
  slot_count : Nat
  flags : Nat
  crc : Nat
deriving DecidableEq, Repr

/-- The serialized superblock bytes preceding the crc field. -/
def superBytesBeforeCrc (s : JournalSuper) : List Nat :=
  (s.magic.take 8 ++ List.replicate (8 - s.magic.length) 0) ++
  natToLE 4 s.version ++ natToLE 4 s.slot_size ++ natToLE 4 s.slot_count ++
  natToLE 4 s.flags

/-- journal_super_crc. -/
def journal_super_crc (s : JournalSuper) : Nat :=
  calculate_crc32 (superBytesBeforeCrc s)

/-- journal_validate_super. -/
def journal_validate_super (s : JournalSuper) : Prop :=
  s.magic = VAULT_JOURNAL_MAGIC ∧ s.version = VAULT_VERSION ∧
  s.slot_count = VAULT_JOURNAL_SLOT_COUNT ∧ s.slot_size = SIZEOF_JOURNAL_SLOT ∧
  s.crc = journal_super_crc s

instance (s : JournalSuper) : Decidable (journal_validate_super s) := by
  unfold journal_validate_super; infer_instance

/-- journal_read_super (the pread is modelled as receiving the record). -/
def journal_read_super (s : JournalSuper) : Except Vres JournalSuper :=
  if journal_validate_super s then .ok s else .error .corrupted

/-- A superblock whose crc is stamped over its own serialized prefix. -/
def mkStampedSuper (magic : List Nat) (version slotSize slotCount flags : Nat) :
    JournalSuper :=
  { magic := magic, version := version, slot_size := slotSize,
    slot_count := slotCount, flags := flags,
    crc := journal_super_crc ⟨magic, version, slotSize, slotCount, flags, 0⟩ }

theorem journal_super_crc_mk (m : List Nat) (a b c d cr : Nat) :
    journal_super_crc ⟨m, a, b, c, d, cr⟩ =
      journal_super_crc ⟨m, a, b, c, d, 0⟩ := rfl

theorem mkStampedSuper_crc (m : List Nat) (a b c d : Nat) :
    (mkStampedSuper m a b c d).crc = journal_super_crc (mkStampedSuper m a b c d) := by
  unfold mkStampedSuper
  exact (journal_super_crc_mk m a b c d _).symm

/-- The on-disk journal header: superblock plus its slot array. -/
structure JournalDisk where
  super : JournalSuper
  slots : List JournalSlot
deriving DecidableEq, Repr

/-! ## Claim C4 — vault_change_password on a journal vault -/

/-- 2^32, the wrap-around modulus of the uint32_t sequence number. -/
def U32_MOD : Nat := 4294967296

/-- The MK-unwrap step of vault_open: derive the KEK from the passphrase
and the stored salt, split the 72-byte wrapped MK into nonce and
ciphertext, AEAD-decrypt with AAD = vault_id. -/
def unwrapMK (pass : List Nat) (vaultId salt : Nat) (wrapped : List Nat) :
    Except Vres (List Nat) :=
  vault_aead_decrypt (vault_kdf_derive_with_params pass salt)
    (wrapped.headD 0) (idCells vaultId) (wrapped.drop VAULT_NONCE_LEN)

/-- The old-passphrase verification step of vault_change_password (derive
old KEK, decrypt the stored wrapped MK, compare with the in-memory MK);
false stands for the AUTH_FAIL exits. -/
def cpVerifyOld (g : VaultState) (oldPass : List Nat) : Bool :=
  match vault_aead_decrypt (vault_kdf_derive_with_params oldPass g.salt)
      (g.wrapped_mk.headD 0) (idCells g.vault_id)
      (g.wrapped_mk.drop VAULT_NONCE_LEN) with
  | .error _ => false
  | .ok decrypted => decrypted.headD 0 = g.master_key

/-- The journal branch of vault_change_password (vault_container.c; the
legacy branch dispatches to migrate_legacy_to_journal and is not the
subject of any claim). globalKdf stands for the process-wide adaptive
profile consulted when the handle carries zero KDF params; rng is the
randomness supply for the fresh salt and wrap nonce. -/
def vault_change_password_journal (g : VaultState) (disk : JournalDisk)
    (oldPass newPass : List Nat) (globalKdf : Nat × Nat × Nat) (rng : Nat) :
    Vres × VaultState × JournalDisk × Nat :=
  if oldPass.length < VAULT_MIN_PASSPHRASE_LEN ∨
      newPass.length < VAULT_MIN_PASSPHRASE_LEN then (.passTooShort, g, disk, rng)
  else if ¬g.is_open then (.notOpen, g, disk, rng)
  else if ¬cpVerifyOld g oldPass then (.authFail, g, disk, rng)
  else
    let kdfMem := if g.kdf_mem = 0 ∨ g.kdf_iter = 0 then globalKdf.1 else g.kdf_mem
    let kdfIter := if g.kdf_mem = 0 ∨ g.kdf_iter = 0 then globalKdf.2.1 else g.kdf_iter
    let kdfPar := if g.kdf_mem = 0 ∨ g.kdf_iter = 0 then globalKdf.2.2 else g.kdf_parallel
    let newSalt := (randFresh rng).1
    let new_kek := vault_kdf_derive_with_params newPass newSalt
    let wrapNonce := (randFresh (randFresh rng).2).1
    let rng2 := (randFresh (randFresh rng).2).2
    let newWrapped := nonceCells wrapNonce ++
      aeadEncrypt new_kek wrapNonce (idCells g.vault_id) (keyCells g.master_key)
    match journal_read_super disk.super with
    | .error e => (e, g, disk, rng2)
    | .ok super =>
        let newSeq := (g.header_seq + 1) % U32_MOD
        if newSeq = 0 then
          let slot0 := journal_fill_slot 1 g.vault_id newSalt kdfMem
            kdfIter kdfPar newWrapped
          let slot1 := journal_fill_slot 2 g.vault_id newSalt kdfMem
            kdfIter kdfPar newWrapped
          let disk2 : JournalDisk :=
            { disk with slots := (disk.slots.set 0 slot0).set 1 slot1 }
          let g2 := { g with
            salt := newSalt
            wrapped_mk := newWrapped
            wrapped_mk_len := WRAPPED_MK_SIZE
            kdf_mem := kdfMem
            kdf_iter := kdfIter
            kdf_parallel := kdfPar
            header_seq := 2 }
          (.ok, g2, disk2, rng2)
        else
          let slotIndex := newSeq % super.slot_count
          let slot := journal_fill_slot newSeq g.vault_id newSalt kdfMem
            kdfIter kdfPar newWrapped
          let disk2 : JournalDisk :=
            { disk with slots := disk.slots.set slotIndex slot }
          let g2 := { g with
            salt := newSalt
            wrapped_mk := newWrapped
            wrapped_mk_len := WRAPPED_MK_SIZE
            kdf_mem := kdfMem
            kdf_iter := kdfIter
            kdf_parallel := kdfPar
            header_seq := newSeq }
          (.ok, g2, disk2, rng2)

theorem getD_set_self {α : Type} (l : List α) (i : Nat) (a d : α)
    (h : i < l.length) : (l.set i a).getD i d = a := by
  induction l generalizing i with
  | nil => simp at h
  | cons x xs ih =>
      cases i with
      | zero => rfl
      | succ j => exact ih j (by simpa using h)

theorem getD_set_ne {α : Type} (l : List α) (i j : Nat) (a d : α)
    (h : i ≠ j) : (l.set i a).getD j d = l.getD j d := by
  induction l generalizing i j with
  | nil => rfl
  | cons x xs ih =>
      cases i with
      | zero =>
          cases j with
          | zero => exact absurd rfl h
          | succ k => rfl
      | succ i2 =>
          cases j with
          | zero => rfl
          | succ k => exact ih i2 k (by omega)

theorem cpVerifyOld_true (g : VaultState) (oldPass : List Nat) (n0 : Nat)
    (hwrapped : g.wrapped_mk = nonceCells n0 ++
      aeadEncrypt (vault_kdf_derive_with_params oldPass g.salt) n0
        (idCells g.vault_id) (keyCells g.master_key)) :
    cpVerifyOld g oldPass = true := by
  have hhead : g.wrapped_mk.headD 0 = n0 := by
    rw [hwrapped]; simp [nonceCells]
  have hdrop : g.wrapped_mk.drop VAULT_NONCE_LEN =
      aeadEncrypt (vault_kdf_derive_with_params oldPass g.salt) n0
        (idCells g.vault_id) (keyCells g.master_key) := by
    rw [hwrapped, ← nonceCells_length n0, List.drop_left]
  unfold cpVerifyOld
  rw [hhead, hdrop, vault_aead_decrypt_encrypt]
  simp [keyCells]

/-- Characterization of the successful run of the journal branch of
vault_change_password. -/
theorem c4_run (g : VaultState) (disk : JournalDisk)
    (oldPass newPass : List Nat) (globalKdf : Nat × Nat × Nat) (rng n0 : Nat)
    (hopen : g.is_open = true)
    (holdlen : oldPass.length ≥ VAULT_MIN_PASSPHRASE_LEN)
    (hnewlen : newPass.length ≥ VAULT_MIN_PASSPHRASE_LEN)
    (hwrapped : g.wrapped_mk = nonceCells n0 ++
      aeadEncrypt (vault_kdf_derive_with_params oldPass g.salt) n0
        (idCells g.vault_id) (keyCells g.master_key))
    (hsuper : journal_validate_super disk.super) :
    vault_change_password_journal g disk oldPass newPass globalKdf rng =
      (let kdfMem := if g.kdf_mem = 0 ∨ g.kdf_iter = 0 then globalKdf.1 else g.kdf_mem
       let kdfIter := if g.kdf_mem = 0 ∨ g.kdf_iter = 0 then globalKdf.2.1 else g.kdf_iter
       let kdfPar := if g.kdf_mem = 0 ∨ g.kdf_iter = 0 then globalKdf.2.2 else g.kdf_parallel
       let newWrapped := nonceCells (rng + 1) ++
         aeadEncrypt (vault_kdf_derive_with_params newPass rng) (rng + 1)
           (idCells g.vault_id) (keyCells g.master_key)
       let newSeq := (g.header_seq + 1) % U32_MOD
       if newSeq = 0 then
         (.ok,
          { g with
            salt := rng
            wrapped_mk := newWrapped
            wrapped_mk_len := WRAPPED_MK_SIZE
            kdf_mem := kdfMem
            kdf_iter := kdfIter
            kdf_parallel := kdfPar
            header_seq := 2 },
          { disk with slots := (disk.slots.set 0
                        (journal_fill_slot 1 g.vault_id rng kdfMem kdfIter
                          kdfPar newWrapped)).set 1
                        (journal_fill_slot 2 g.vault_id rng kdfMem kdfIter
                          kdfPar newWrapped) },
          rng + 2)
       else
         (.ok,
          { g with
            salt := rng
            wrapped_mk := newWrapped
            wrapped_mk_len := WRAPPED_MK_SIZE
            kdf_mem := kdfMem
            kdf_iter := kdfIter
            kdf_parallel := kdfPar
            header_seq := newSeq },
          { disk with slots := disk.slots.set (newSeq % disk.super.slot_count)
                        (journal_fill_slot newSeq g.vault_id rng kdfMem
                          kdfIter kdfPar newWrapped) },
          rng + 2)) := by
  unfold vault_change_password_journal
  rw [if_neg (by omega)]
  rw [hopen]
  rw [if_neg (by simp)]
  rw [cpVerifyOld_true g oldPass n0 hwrapped]
  rw [if_neg (by simp)]
  unfold journal_read_super
  rw [if_pos hsuper]
  rfl

theorem unwrapMK_encrypt (pass : List Nat) (vid salt nonce mk : Nat) :
    unwrapMK pass vid salt (nonceCells nonce ++
      aeadEncrypt (vault_kdf_derive_with_params pass salt) nonce
        (idCells vid) (keyCells mk)) = .ok (keyCells mk) := by
  unfold unwrapMK
  have hhead : ((nonceCells nonce ++
      aeadEncrypt (vault_kdf_derive_with_params pass salt) nonce
        (idCells vid) (keyCells mk)).headD 0) = nonce := by
    simp [nonceCells]
  have hdrop : ((nonceCells nonce ++
      aeadEncrypt (vault_kdf_derive_with_params pass salt) nonce
        (idCells vid) (keyCells mk)).drop VAULT_NONCE_LEN) =
      aeadEncrypt (vault_kdf_derive_with_params pass salt) nonce
        (idCells vid) (keyCells mk) := by
    rw [← nonceCells_length nonce, List.drop_left]
  rw [hhead, hdrop, vault_aead_decrypt_encrypt]

theorem unwrapMK_wrong_key (passUsed passStored : List Nat)
    (vid salt nonce mk : Nat)
    (hne : vault_kdf_derive_with_params passStored salt ≠
      vault_kdf_derive_with_params passUsed salt) :
    unwrapMK passUsed vid salt (nonceCells nonce ++
      aeadEncrypt (vault_kdf_derive_with_params passStored salt) nonce
        (idCells vid) (keyCells mk)) = .error .authFail := by
  unfold unwrapMK
  have hhead : ((nonceCells nonce ++
      aeadEncrypt (vault_kdf_derive_with_params passStored salt) nonce
        (idCells vid) (keyCells mk)).headD 0) = nonce := by
    simp [nonceCells]
  have hdrop : ((nonceCells nonce ++
      aeadEncrypt (vault_kdf_derive_with_params passStored salt) nonce
        (idCells vid) (keyCells mk)).drop VAULT_NONCE_LEN) =
      aeadEncrypt (vault_kdf_derive_with_params passStored salt) nonce
        (idCells vid) (keyCells mk) := by
    rw [← nonceCells_length nonce, List.drop_left]
  rw [hhead, hdrop]
  unfold vault_aead_decrypt
  rw [aeadEncrypt_length]
  rw [if_neg (by omega)]
  rw [aeadDecrypt_wrong_key _ _ _ _ _ _ _ hne]

/-- C4: on a journal vault with the correct old passphrase, change_password
writes the rotated slot (fresh salt, re-wrapped MK, seq = current+1 mod
2^32) at index new_seq mod slot_count and leaves the other slot untouched;
on wrap-around both slots are rewritten with seq 1 and 2 and the in-memory
seq becomes 2; afterwards the stored wrapped MK unwraps under the new
passphrase and fails under the old one. -/
theorem c4_change_password (g : VaultState) (disk : JournalDisk)
    (oldPass newPass : List Nat) (globalKdf : Nat × Nat × Nat) (rng n0 : Nat)
    (hopen : g.is_open = true)
    (holdlen : oldPass.length ≥ VAULT_MIN_PASSPHRASE_LEN)
    (hnewlen : newPass.length ≥ VAULT_MIN_PASSPHRASE_LEN)
    (hwrapped : g.wrapped_mk = nonceCells n0 ++
      aeadEncrypt (vault_kdf_derive_with_params oldPass g.salt) n0
        (idCells g.vault_id) (keyCells g.master_key))
    (hsuper : journal_validate_super disk.super)
    (hslots : disk.slots.length = disk.super.slot_count) :
    (vault_change_password_journal g disk oldPass newPass globalKdf rng).1 =
      .ok ∧
    (let g2 := (vault_change_password_journal g disk oldPass newPass
       globalKdf rng).2.1
     let slots2 := (vault_change_password_journal g disk oldPass newPass
       globalKdf rng).2.2.1.slots
     let newSeq := (g.header_seq + 1) % U32_MOD
     (newSeq ≠ 0 →
        g2.header_seq = newSeq ∧
        (slots2.getD (newSeq % disk.super.slot_count) default).seq = newSeq ∧
        (slots2.getD (newSeq % disk.super.slot_count) default).kdf_salt =
          g2.salt ∧
        (slots2.getD (newSeq % disk.super.slot_count) default).wrapped_mk =
          g2.wrapped_mk ∧
        (∀ j, j ≠ newSeq % disk.super.slot_count →
          slots2.getD j default = disk.slots.getD j default)) ∧
     (newSeq = 0 →
        g2.header_seq = 2 ∧
        (slots2.getD 0 default).seq = 1 ∧
        (slots2.getD 1 default).seq = 2 ∧
        (slots2.getD 0 default).kdf_salt = g2.salt ∧
        (slots2.getD 1 default).kdf_salt = g2.salt ∧
        (slots2.getD 0 default).wrapped_mk = g2.wrapped_mk ∧
        (slots2.getD 1 default).wrapped_mk = g2.wrapped_mk) ∧
     unwrapMK newPass g.vault_id g2.salt g2.wrapped_mk =
       .ok (keyCells g.master_key) ∧
     (oldPass ≠ newPass → isBytes oldPass → isBytes newPass →
        unwrapMK oldPass g.vault_id g2.salt g2.wrapped_mk =
          .error .authFail)) := by
  have hrun := c4_run g disk oldPass newPass globalKdf rng n0 hopen holdlen
    hnewlen hwrapped hsuper
  have hcount : disk.super.slot_count = 2 := hsuper.2.2.1
  have hlen2 : disk.slots.length = 2 := by rw [hslots, hcount]
  rw [hrun]
  dsimp only
  by_cases hzero : (g.header_seq + 1) % U32_MOD = 0
  · rw [if_pos hzero]
    dsimp only
    refine ⟨rfl, fun hne => absurd hzero hne, fun _ => ?_, ?_, ?_⟩
    · refine ⟨rfl, ?_, ?_, ?_, ?_, ?_, ?_⟩
      · rw [getD_set_ne _ _ _ _ _ (by omega),
          getD_set_self _ _ _ _ (by omega)]
        rfl
      · rw [getD_set_self _ _ _ _ (by simp [hlen2])]
        rfl
      · rw [getD_set_ne _ _ _ _ _ (by omega),
          getD_set_self _ _ _ _ (by omega)]
        rfl
      · rw [getD_set_self _ _ _ _ (by simp [hlen2])]
        rfl
      · rw [getD_set_ne _ _ _ _ _ (by omega),
          getD_set_self _ _ _ _ (by omega)]
        rfl
      · rw [getD_set_self _ _ _ _ (by simp [hlen2])]
        rfl
    · exact unwrapMK_encrypt newPass g.vault_id rng (rng + 1) g.master_key
    · intro hnePass hob hnb
      exact unwrapMK_wrong_key oldPass newPass g.vault_id rng (rng + 1)
        g.master_key (kdf_inj_pass newPass oldPass rng hnb hob
          (fun h => hnePass h.symm))
  · rw [if_neg hzero]
    dsimp only
    have hidx : (g.header_seq + 1) % U32_MOD % disk.super.slot_count <
        disk.slots.length := by
      rw [hlen2, hcount]
      exact Nat.mod_lt _ (by omega)
    refine ⟨rfl, fun _ => ?_, fun h0 => absurd h0 hzero, ?_, ?_⟩
    · refine ⟨rfl, ?_, ?_, ?_, ?_⟩
      · rw [getD_set_self _ _ _ _ hidx]
        unfold journal_fill_slot mkStampedSlot
        simp [hzero]
      · rw [getD_set_self _ _ _ _ hidx]
        rfl
      · rw [getD_set_self _ _ _ _ hidx]
        rfl
      · intro j hj
        rw [getD_set_ne _ _ _ _ _ (fun h => hj h.symm)]
    · exact unwrapMK_encrypt newPass g.vault_id rng (rng + 1) g.master_key
    · intro hnePass hob hnb
      exact unwrapMK_wrong_key oldPass newPass g.vault_id rng (rng + 1)
        g.master_key (kdf_inj_pass newPass oldPass rng hnb hob
          (fun h => hnePass h.symm))

/-- Concrete inputs for the C4 witness. -/
def c4OldPass : List Nat := List.replicate 12 1

def c4NewPass : List Nat := List.replicate 12 2

def c4g : VaultState :=
  { baseState with
    is_open := true
    vault_id := 9
    master_key := 7
    salt := 3
    kdf_mem := 1
    kdf_iter := 1
    kdf_parallel := 1
    header_is_journal := true
    header_seq := 1
    wrapped_mk := nonceCells 11 ++
      aeadEncrypt (vault_kdf_derive_with_params c4OldPass 3) 11
        (idCells 9) (keyCells 7)
    wrapped_mk_len := WRAPPED_MK_SIZE }

def c4Disk : JournalDisk :=
  { super := mkStampedSuper VAULT_JOURNAL_MAGIC VAULT_VERSION
      SIZEOF_JOURNAL_SLOT VAULT_JOURNAL_SLOT_COUNT 0
    slots := [default, default] }

theorem c4SuperValid : journal_validate_super c4Disk.super :=
  ⟨rfl, rfl, rfl, rfl,
    mkStampedSuper_crc VAULT_JOURNAL_MAGIC VAULT_VERSION SIZEOF_JOURNAL_SLOT
      VAULT_JOURNAL_SLOT_COUNT 0⟩

/-- C4 witness: the hypotheses hold at the concrete vault and the password
change succeeds there. -/
theorem c4_change_password_witness :
    c4g.is_open = true ∧
    c4OldPass.length ≥ VAULT_MIN_PASSPHRASE_LEN ∧
    c4NewPass.length ≥ VAULT_MIN_PASSPHRASE_LEN ∧
    journal_validate_super c4Disk.super ∧
    c4Disk.slots.length = c4Disk.super.slot_count ∧
    (vault_change_password_journal c4g c4Disk c4OldPass c4NewPass (1, 1, 1)
      100).1 = .ok :=
  ⟨rfl, by decide, by decide, c4SuperValid, rfl,
   (c4_change_password c4g c4Disk c4OldPass c4NewPass (1, 1, 1) 100 11 rfl
     (by decide) (by decide) rfl c4SuperValid rfl).1⟩

/-! ## Index deserialization (deserialize_index, vault_container.c) -/

/-- Little-endian read of k byte cells at an offset. -/
def readLE (data : List Nat) (offset k : Nat) : Nat :=
  leToNat ((data.drop offset).take k)

/-- The chunk-table loop of deserialize_index: chunk_count records of
(offset:u64, length:u32, nonce[24]); any record crossing the end of the
plaintext is CORRUPTED. Returns the parsed chunks and the next offset. -/
def parseChunks (data : List Nat) : Nat → Nat →
    Except Vres (List VaultChunk × Nat)
  | offset, 0 => .ok ([], offset)
  | offset, n + 1 =>
      if offset + 8 + 4 + VAULT_NONCE_LEN > data.length then .error .corrupted
      else
        let c : VaultChunk :=
          { offset := readLE data offset 8
            length := readLE data (offset + 8) 4
            nonce := (data.drop (offset + 12)).headD 0 }
        match parseChunks data (offset + 8 + 4 + VAULT_NONCE_LEN) n with
        | .error e => .error e
        | .ok (rest, fin) => .ok (c :: rest, fin)

/-- One entry of deserialize_index, starting at an offset; returns the
entry and the offset after it. -/
def parseEntry (data : List Nat) (offset : Nat) :
    Except Vres (VaultEntry × Nat) :=
  if offset + VAULT_ID_LEN + 1 + 8 > data.length then .error .corrupted
  else
    let file_id := readLE data offset VAULT_ID_LEN
    let o1 := offset + VAULT_ID_LEN
    let ty := (data.drop o1).headD 0
    let o2 := o1 + 1
    let created_at := readLE data o2 8
    let o3 := o2 + 8
    if o3 + 2 > data.length then .error .corrupted
    else
      let name_len := readLE data o3 2
      let o4 := o3 + 2
      if name_len > 0 ∧ (o4 + name_len > data.length ∨ name_len > 4096) then
        .error .corrupted
      else
        let name := listSlice data o4 name_len
        let o5 := o4 + name_len
        if o5 + 2 > data.length then .error .corrupted
        else
          let mime_len := readLE data o5 2
          let o6 := o5 + 2
          if mime_len > 0 ∧ (o6 + mime_len > data.length ∨ mime_len > 512) then
            .error .corrupted
          else
            let mime := listSlice data o6 mime_len
            let o7 := o6 + mime_len
            if o7 + 8 > data.length then .error .corrupted
            else
              let size := readLE data o7 8
              let o8 := o7 + 8
              if o8 + 2 > data.length then .error .corrupted
              else
                let dek_len := readLE data o8 2
                let o9 := o8 + 2
                if dek_len > 0 ∧ (o9 + dek_len > data.length ∨ dek_len > 512) then
                  .error .corrupted
                else
                  let wrapped_dek := listSlice data o9 dek_len
                  let o10 := o9 + dek_len
                  if o10 + 4 > data.length then .error .corrupted
                  else
                    let chunk_count := readLE data o10 4
                    let o11 := o10 + 4
                    if chunk_count > 0 then
                      match parseChunks data o11 chunk_count with
                      | .error e => .error e
                      | .ok (chunks, fin) =>
                          .ok ({ file_id := file_id, type := ty,
                                 created_at := created_at, name := name,
                                 mime := mime, size := size,
                                 wrapped_dek := wrapped_dek,
                                 data_offset := 0, data_length := 0,
                                 chunks := chunks },
                               fin)
                    else
                      if o11 + 16 > data.length then .error .corrupted
                      else
                        .ok ({ file_id := file_id, type := ty,
                               created_at := created_at, name := name,
                               mime := mime, size := size,
                               wrapped_dek := wrapped_dek,
                               data_offset := readLE data o11 8,
                               data_length := readLE data (o11 + 8) 8,
                               chunks := [] },
                             o11 + 16)

/-- The entry loop of deserialize_index. -/
def parseEntries (data : List Nat) : Nat → Nat →
    Except Vres (List VaultEntry)
  | _, 0 => .ok []
  | offset, n + 1 =>
      match parseEntry data offset with
      | .error e => .error e
      | .ok (entry, o2) =>
          match parseEntries data o2 n with
          | .error e => .error e
          | .ok rest => .ok (entry :: rest)

/-- deserialize_index: count field (with padding flag masked off), sanity
cap of 1,000,000 entries, then the entry loop. Trailing padding bytes after
the last entry are ignored. -/
def deserialize_index (data : List Nat) : Except Vres (List VaultEntry) :=
  if data.length < 4 then .error .corrupted
  else
    let count_field := readLE data 0 4
    let count := count_field &&& VAULT_INDEX_COUNT_MASK
    if count > 1000000 then .error .corrupted
    else parseEntries data 4 count

/-! ## read_index (vault_container.c) -/

/-- read_index, reading the index section from the byte tail of the
container that follows the header: nonce[24], ct_len:u64, ciphertext.
Short reads are VAULT_ERR_IO; ct_len above 100 MiB is CORRUPTED; the
AEAD result is propagated on failure. After a successful decryption the
function stores index_capacity and the padding flag, replaces the entry
list only when deserialize_index succeeds, and returns VAULT_OK even when
it fails. -/
def read_index (g : VaultState) (rest : List Nat) : Vres × VaultState :=
  if rest.length < VAULT_NONCE_LEN + 8 then (.ioErr, g)
  else
    let nonce := rest.headD 0
    let ct_len := readLE rest VAULT_NONCE_LEN 8
    if ct_len > 100 * 1024 * 1024 then (.corrupted, g)
    else if rest.length < VAULT_NONCE_LEN + 8 + ct_len then (.ioErr, g)
    else
      let ciphertext := listSlice rest (VAULT_NONCE_LEN + 8) ct_len
      match vault_aead_decrypt g.master_key nonce [] ciphertext with
      | .error e => (e, g)
      | .ok plaintext =>
          let g1 := { g with
            index_capacity := plaintext.length
            index_is_padded :=
              if plaintext.length ≥ 4 then
                decide (readLE plaintext 0 4 &&& VAULT_INDEX_PAD_FLAG ≠ 0)
              else false }
          match deserialize_index plaintext with
          | .ok entries => (.ok, { g1 with entries := entries })
          | .error _ => (.ok, g1)

/-! ## Claim C9 — read_index swallows deserialize failures -/

/-- C9: when the AEAD decryption of the index section succeeds but
deserialize_index fails on the plaintext, read_index still returns
VAULT_OK and leaves the previous entry list in place. -/
theorem c9_read_index (g : VaultState) (n : Nat) (pt tail rest : List Nat)
    (e : Vres)
    (hrest : rest = nonceCells n ++ natToLE 8 (pt.length + VAULT_TAG_LEN) ++
      aeadEncrypt g.master_key n [] pt ++ tail)
    (hcap : pt.length + VAULT_TAG_LEN ≤ 100 * 1024 * 1024)
    (hfail : deserialize_index pt = .error e) :
    (read_index g rest).1 = .ok ∧ (read_index g rest).2.entries = g.entries := by
  subst hrest
  have hA : (nonceCells n).length = VAULT_NONCE_LEN := nonceCells_length n
  have hB : (natToLE 8 (pt.length + VAULT_TAG_LEN)).length = 8 :=
    natToLE_length 8 _
  have hC : (aeadEncrypt g.master_key n [] pt).length =
      pt.length + VAULT_TAG_LEN := aeadEncrypt_length _ _ _ _
  have h24 : VAULT_NONCE_LEN = 24 := rfl
  have h16 : VAULT_TAG_LEN = 16 := rfl
  have hlen : (nonceCells n ++ natToLE 8 (pt.length + VAULT_TAG_LEN) ++
      aeadEncrypt g.master_key n [] pt ++ tail).length =
      VAULT_NONCE_LEN + 8 + (pt.length + VAULT_TAG_LEN) + tail.length := by
    simp only [List.length_append, hA, hB, hC]
  have hhead : (nonceCells n ++ natToLE 8 (pt.length + VAULT_TAG_LEN) ++
      aeadEncrypt g.master_key n [] pt ++ tail).headD 0 = n := by
    simp [nonceCells]
  have hdrop24 : (nonceCells n ++ natToLE 8 (pt.length + VAULT_TAG_LEN) ++
      aeadEncrypt g.master_key n [] pt ++ tail).drop VAULT_NONCE_LEN =
      natToLE 8 (pt.length + VAULT_TAG_LEN) ++
      (aeadEncrypt g.master_key n [] pt ++ tail) := by
    rw [List.append_assoc, List.append_assoc]
    exact List.drop_left' hA
  have hread : readLE (nonceCells n ++ natToLE 8 (pt.length + VAULT_TAG_LEN) ++
      aeadEncrypt g.master_key n [] pt ++ tail) VAULT_NONCE_LEN 8 =
      pt.length + VAULT_TAG_LEN := by
    unfold readLE
    rw [hdrop24, List.take_left' hB]
    exact leToNat_natToLE 8 _ (by rw [h16] at hcap ⊢; omega)
  have hslice : listSlice (nonceCells n ++
      natToLE 8 (pt.length + VAULT_TAG_LEN) ++
      aeadEncrypt g.master_key n [] pt ++ tail) (VAULT_NONCE_LEN + 8)
      (pt.length + VAULT_TAG_LEN) = aeadEncrypt g.master_key n [] pt := by
    unfold listSlice
    have hsplit : nonceCells n ++ natToLE 8 (pt.length + VAULT_TAG_LEN) ++
        aeadEncrypt g.master_key n [] pt ++ tail =
        (nonceCells n ++ natToLE 8 (pt.length + VAULT_TAG_LEN)) ++
        (aeadEncrypt g.master_key n [] pt ++ tail) := by
      simp [List.append_assoc]
    rw [hsplit]
    rw [List.drop_left' (by simp [hA, hB])]
    exact List.take_left' hC
  unfold read_index
  dsimp only
  rw [hhead, hread, hslice]
  rw [vault_aead_decrypt_encrypt]
  rw [if_neg (by rw [hlen]; omega)]
  rw [if_neg (by omega)]
  rw [if_neg (by rw [hlen]; omega)]
  simp [hfail]

/-- Concrete state for the C9 witness: one live entry that must survive. -/
def c9g : VaultState :=
  { baseState with
    is_open := true
    master_key := 21
    entries := [{ file_id := 4, type := 1, created_at := 0, name := [97],
                  mime := [], size := 3, wrapped_dek := [],
                  data_offset := 50, data_length := 43, chunks := [] }] }

/-- An index section whose plaintext decodes to count 1 (with padding flag)
but carries no entry bytes, so deserialize_index fails. -/
def c9Rest : List Nat :=
  nonceCells 5 ++ natToLE 8 ([1, 0, 0, 128].length + VAULT_TAG_LEN) ++
  aeadEncrypt c9g.master_key 5 [] [1, 0, 0, 128] ++ []

/-- C9 witness at the concrete state. -/
theorem c9_read_index_witness :
    deserialize_index [1, 0, 0, 128] = .error .corrupted ∧
    (read_index c9g c9Rest).1 = .ok ∧
    (read_index c9g c9Rest).2.entries = c9g.entries :=
  ⟨by decide,
   (c9_read_index c9g 5 [1, 0, 0, 128] [] c9Rest .corrupted rfl (by decide)
     (by decide)).1,
   (c9_read_index c9g 5 [1, 0, 0, 128] [] c9Rest .corrupted rfl (by decide)
     (by decide)).2⟩

/-! ## Handle lifecycle (vault_engine.c) and vault_open (vault_container.c) -/

/-- vault_close of vault_engine.c. Note the guard: a handle whose is_open
flag is 0 is returned untouched, whatever else it holds. -/
def vault_close (g : VaultState) : VaultState :=
  if ¬g.is_open then g
  else
    { g with
      is_open := false
      master_key := 0
      salt := 0
      vault_id := 0
      wrapped_mk := List.replicate WRAPPED_MK_SIZE 0
      wrapped_mk_len := 0
      kdf_mem := 0
      kdf_iter := 0
      kdf_parallel := 0
      entries := []
      path := none
      total_size := 0
      free_space := 0
      header_size := 0
      header_seq := 0
      header_slot_size := 0
      header_slot_count := 0
      header_is_journal := false
      index_capacity := 0
      index_is_padded := false }

/-- validate_kdf_params. -/
def validate_kdf_params (memLimit iterations parallel : Nat) : Bool :=
  decide (VAULT_KDF_MEM_LOW ≤ memLimit ∧ memLimit ≤ VAULT_KDF_MEM_HIGH ∧
    VAULT_KDF_ITER_LOW ≤ iterations ∧ iterations ≤ VAULT_KDF_ITER_HIGH ∧
    VAULT_KDF_PARALLEL_LOW ≤ parallel ∧ parallel ≤ VAULT_KDF_PARALLEL_HIGH)

/-- The packed legacy vault_header_t plus the stored trailing CRC. -/
structure LegacyHeader where
  magic : List Nat
  version : Nat
  vault_id : Nat
  kdf_salt : Nat
  kdf_mem : Nat
  kdf_iter : Nat
  kdf_parallel : Nat
  wrapped_mk_len : Nat
  wrapped_mk : List Nat
  storedCrc : Nat
deriving DecidableEq, Repr

/-- The 60 packed bytes of vault_header_t (the CRC input). -/
def legacyHeaderBytes (h : LegacyHeader) : List Nat :=
  (h.magic.take 8 ++ List.replicate (8 - h.magic.length) 0) ++
  natToLE 4 h.version ++ idCells h.vault_id ++ natToLE VAULT_SALT_LEN h.kdf_salt ++
  natToLE 4 h.kdf_mem ++ natToLE 4 h.kdf_iter ++ natToLE 4 h.kdf_parallel ++
  natToLE 4 h.wrapped_mk_len

/-- header_total_size: sizeof(vault_header_t) + wrapped_mk_len + crc. -/
def header_total_size (h : LegacyHeader) : Nat :=
  60 + h.wrapped_mk_len + 4

/-- journal_total_size: sizeof superblock (28) + slot_count * slot_size. -/
def journal_total_size (s : JournalSuper) : Nat :=
  28 + s.slot_count * s.slot_size

/-- A container file at the parsed-header level of detail: the 8-byte magic
decides which constructor applies; rest holds the bytes that follow the
header (index section onward). -/
inductive DiskImage where
  | journalDisk (d : JournalDisk) (rest : List Nat)
  | legacyDisk (hdr : LegacyHeader) (rest : List Nat)
  | badMagic
deriving DecidableEq, Repr

/-- vault_open of vault_container.c. On any failure the code jumps to
cleanup and calls vault_close(); because is_open is still 0 at that point,
vault_close returns immediately and whatever was already stored in the
handle (master key, salt, vault_id, wrapped MK, path) survives. path is
the strdup-ed path value, fileSize the fstat size. -/
def vault_open (g : VaultState) (disk : DiskImage) (pass : List Nat)
    (path fileSize : Nat) : Vres × VaultState :=
  let g0 := if g.is_open then vault_close g else g
  match disk with
  | .badMagic => (.corrupted, vault_close g0)
  | .journalDisk d rest =>
      match journal_read_super d.super with
      | .error e => (e, vault_close g0)
      | .ok super =>
          match journal_select_slot d.slots with
          | .error e => (e, vault_close g0)
          | .ok (slot, _) =>
              if ¬validate_kdf_params slot.kdf_mem slot.kdf_iter
                  slot.kdf_parallel then (.corrupted, vault_close g0)
              else
                match unwrapMK pass slot.vault_id slot.kdf_salt
                    slot.wrapped_mk with
                | .error _ => (.authFail, vault_close g0)
                | .ok mkCells =>
                    let g1 := { g0 with
                      master_key := mkCells.headD 0
                      vault_id := slot.vault_id
                      salt := slot.kdf_salt
                      kdf_mem := slot.kdf_mem
                      kdf_iter := slot.kdf_iter
                      kdf_parallel := slot.kdf_parallel
                      path := some path
                      wrapped_mk_len := slot.wrapped_mk_len
                      wrapped_mk := slot.wrapped_mk
                      header_is_journal := true
                      header_seq := slot.seq
                      header_slot_size := super.slot_size
                      header_slot_count := super.slot_count
                      header_size := journal_total_size super }
                    match read_index g1 rest with
                    | (.ok, g2) =>
                        let g3 := { g2 with is_open := true }
                        let used := compute_used_space g3
                        (.ok, { g3 with
                          total_size := fileSize
                          free_space :=
                            if fileSize > used then fileSize - used else 0 })
                    | (e, g2) => (e, vault_close g2)
  | .legacyDisk hdr rest =>
      if hdr.version ≠ VAULT_VERSION then (.corrupted, vault_close g0)
      else if hdr.wrapped_mk_len ≠ WRAPPED_MK_SIZE then
        (.corrupted, vault_close g0)
      else if hdr.storedCrc ≠ calculate_crc32 (legacyHeaderBytes hdr) then
        (.corrupted, vault_close g0)
      else if ¬validate_kdf_params hdr.kdf_mem hdr.kdf_iter hdr.kdf_parallel then
        (.corrupted, vault_close g0)
      else
        match unwrapMK pass hdr.vault_id hdr.kdf_salt hdr.wrapped_mk with
        | .error _ => (.authFail, vault_close g0)
        | .ok mkCells =>
            let g1 := { g0 with
              master_key := mkCells.headD 0
              vault_id := hdr.vault_id
              salt := hdr.kdf_salt
              kdf_mem := hdr.kdf_mem
              kdf_iter := hdr.kdf_iter
              kdf_parallel := hdr.kdf_parallel
              path := some path
              wrapped_mk_len := hdr.wrapped_mk_len
              wrapped_mk := hdr.wrapped_mk
              header_is_journal := false
              header_seq := 0
              header_slot_size := 0
              header_slot_count := 0
              header_size := header_total_size hdr }
            match read_index g1 rest with
            | (.ok, g2) =>
                let g3 := { g2 with is_open := true }
                let used := compute_used_space g3
                (.ok, { g3 with
                  total_size := fileSize
                  free_space :=
                    if fileSize > used then fileSize - used else 0 })
            | (e, g2) => (e, vault_close g2)

/-! ## Streaming import (vault_streaming.c / vault_streaming.h)

streaming_start is modelled over an explicit environment: the list of
pending import states that streaming_list_pending would report from the
staging directory, and the deterministic randomness supply. Timestamps
(created_at / updated_at), the active-slot cache, the progress callbacks
and the mkdir of the staging directory are not observable through the
claims and are left out; creating the staging directory and writing the
.state file are both reflected by the new state being appended to the
pending list. -/

def STREAMING_CHUNK_SIZE : Nat := 4 * 1024 * 1024

def STREAMING_MAX_FILE_SIZE : Nat := 50 * 1024 * 1024 * 1024

/-- STREAMING_OK / STREAMING_ERR_* of vault_streaming.h. -/
inductive Sres where
  | ok
  | invalidParam
  | memory
  | ioFail
  | crypto
  | notFound
  | alreadyExists
  | sourceChanged
  | diskFull
  | vaultNotOpen
  | chunkCorrupted
  | fileTooLarge
deriving DecidableEq, Repr

/-- streaming_import_state_t (persisted fields). -/
structure StreamImportState where
  import_id : Nat
  file_id : Nat
  source_hash : Nat
  file_name : List Nat
  mime_type : List Nat
  file_type : Nat
  file_size : Nat
  chunk_size : Nat
  total_chunks : Nat
  completed_chunks : Nat
  wrapped_dek : List Nat
deriving DecidableEq, Repr

/-- The world streaming_start reads and writes: the pending imports the
staging directory holds, and the randomness supply. -/
structure StreamEnv where
  pending : List StreamImportState
  rng : Nat
deriving DecidableEq, Repr

/-- streaming_start (vault_streaming.c:453-620): reject when the vault is
closed or the file exceeds 50 GiB; scan the pending imports for one whose
source_hash matches and resume it (returning its import_id and
completed_chunks, touching nothing); otherwise allocate fresh import and
file ids, generate a DEK, wrap it under the master key with AAD
(vault_id, file_id, chunk 0), persist the new state and return
resume_from = 0. -/
def streaming_start (g : VaultState) (env : StreamEnv) (source_hash : Nat)
    (name mime : List Nat) (ftype file_size : Nat) :
    Except Sres (Nat × Nat) × StreamEnv :=
  if ¬g.is_open then (.error .vaultNotOpen, env)
  else if file_size > STREAMING_MAX_FILE_SIZE then (.error .fileTooLarge, env)
  else
    match env.pending.find? (fun s => s.source_hash == source_hash) with
    | some st => (.ok (st.import_id, st.completed_chunks), env)
    | none =>
        let import_id := env.rng
        let file_id := env.rng + 1
        let dek := env.rng + 2
        let dekNonce := env.rng + 3
        let wrapped := nonceCells dekNonce ++
          aeadEncrypt g.master_key dekNonce (aadBytes g.vault_id file_id 0)
            (keyCells dek)
        let st : StreamImportState :=
          { import_id := import_id
            file_id := file_id
            source_hash := source_hash
            file_name := name
            mime_type := mime
            file_type := ftype
            file_size := file_size
            chunk_size := STREAMING_CHUNK_SIZE
            total_chunks := (file_size + STREAMING_CHUNK_SIZE - 1) /
              STREAMING_CHUNK_SIZE
            completed_chunks := 0
            wrapped_dek := wrapped }
        (.ok (import_id, 0), { pending := env.pending ++ [st], rng := env.rng + 4 })

/-- C5: on an open vault within the size cap, if the pending-import scan
finds a state with the same source_hash, streaming_start returns that
state's import_id and resume_from = completed_chunks and leaves the
staging area and randomness supply untouched; if no pending state
matches, it returns a fresh import_id with resume_from = 0 and appends
exactly one new pending state carrying fresh import and file ids, chunk
accounting for a 4 MiB chunk size, completed_chunks = 0 and a wrapped
DEK that unwraps under the vault master key. -/
theorem c5_streaming_start (g : VaultState) (env : StreamEnv)
    (source_hash : Nat) (name mime : List Nat) (ftype file_size : Nat)
    (hopen : g.is_open = true)
    (hsize : file_size ≤ STREAMING_MAX_FILE_SIZE) :
    (∀ st : StreamImportState,
      env.pending.find? (fun s => s.source_hash == source_hash) = some st →
      streaming_start g env source_hash name mime ftype file_size =
        (.ok (st.import_id, st.completed_chunks), env)) ∧
    (env.pending.find? (fun s => s.source_hash == source_hash) = none →
      streaming_start g env source_hash name mime ftype file_size =
        (.ok (env.rng, 0),
         { pending := env.pending ++
             [{ import_id := env.rng
                file_id := env.rng + 1
                source_hash := source_hash
                file_name := name
                mime_type := mime
                file_type := ftype
                file_size := file_size
                chunk_size := STREAMING_CHUNK_SIZE
                total_chunks := (file_size + STREAMING_CHUNK_SIZE - 1) /
                  STREAMING_CHUNK_SIZE
                completed_chunks := 0
                wrapped_dek := nonceCells (env.rng + 3) ++
                  aeadEncrypt g.master_key (env.rng + 3)
                    (aadBytes g.vault_id (env.rng + 1) 0)
                    (keyCells (env.rng + 2)) }]
           rng := env.rng + 4 }) ∧
      vault_aead_decrypt g.master_key (env.rng + 3)
        (aadBytes g.vault_id (env.rng + 1) 0)
        (aeadEncrypt g.master_key (env.rng + 3)
          (aadBytes g.vault_id (env.rng + 1) 0) (keyCells (env.rng + 2))) =
        .ok (keyCells (env.rng + 2))) := by
  refine ⟨fun st hfind => ?_, fun hnone => ⟨?_, vault_aead_decrypt_encrypt _ _ _ _⟩⟩
  · unfold streaming_start
    rw [hopen]
    rw [if_neg (by decide), if_neg (by omega), hfind]
  · unfold streaming_start
    rw [hopen]
    rw [if_neg (by decide), if_neg (by omega), hnone]

def c5g : VaultState :=
  { baseState with is_open := true
                   master_key := 42
                   vault_id := 6 }

def c5St : StreamImportState :=
  { import_id := 8
    file_id := 9
    source_hash := 55
    file_name := [97]
    mime_type := [98]
    file_type := 0
    file_size := 10
    chunk_size := STREAMING_CHUNK_SIZE
    total_chunks := 1
    completed_chunks := 3
    wrapped_dek := [] }

def c5Env : StreamEnv := ⟨[c5St], 100⟩

theorem c5_streaming_start_witness :
    c5g.is_open = true ∧ (10 : Nat) ≤ STREAMING_MAX_FILE_SIZE ∧
    streaming_start c5g c5Env 55 [99] [98] 0 10 = (.ok (8, 3), c5Env) ∧
    (streaming_start c5g ⟨[], 100⟩ 55 [99] [98] 0 10).1 = .ok (100, 0) := by
  refine ⟨rfl, by decide, ?_, ?_⟩
  · exact (c5_streaming_start c5g c5Env 55 [99] [98] 0 10 rfl (by decide)).1
      c5St rfl
  · rw [((c5_streaming_start c5g ⟨[], 100⟩ 55 [99] [98] 0 10 rfl
      (by decide)).2 rfl).1]

/-! ## Index serialization and the append path (vault_container.c)

The container file is a byte-cell list. In-place pwrite is writeAt;
lseek-past-end zero-fill never occurs on the verified paths. -/

/-- In-place file write at an offset: overwrite, extending at the end. -/
def writeAt (file : List Nat) (off : Nat) (bytes : List Nat) : List Nat :=
  file.take off ++ bytes ++ file.drop (off + bytes.length)

/-- The serialized size of one entry inside the index plaintext
(calculate_index_plaintext_size per-entry body). -/
def entrySize (e : VaultEntry) : Nat :=
  VAULT_ID_LEN + 1 + 8 + (2 + e.name.length) + (2 + e.mime.length) + 8 +
    (2 + e.wrapped_dek.length) + 4 +
    (if e.chunk_count > 0 then
      e.chunk_count * (8 + 4 + VAULT_NONCE_LEN)
    else 16)

/-- calculate_index_plaintext_size: u32 count plus the entry bodies. -/
def calculate_index_plaintext_size (entries : List VaultEntry) : Nat :=
  4 + (entries.map entrySize).sum

/-- index_choose_capacity. -/
def index_choose_capacity (required current : Nat) : Nat :=
  let capacity :=
    if current < required then
      max (required + required / 2) (required + VAULT_INDEX_GROWTH_SLACK)
    else current
  if capacity < VAULT_INDEX_MIN_CAPACITY then VAULT_INDEX_MIN_CAPACITY
  else capacity

/-- One entry's bytes inside the serialized index (serialize_index body). -/
def serializeEntry (e : VaultEntry) : List Nat :=
  idCells e.file_id ++ [e.type % 256] ++ natToLE 8 e.created_at ++
  natToLE 2 e.name.length ++ e.name ++
  natToLE 2 e.mime.length ++ e.mime ++
  natToLE 8 e.size ++
  natToLE 2 e.wrapped_dek.length ++ e.wrapped_dek ++
  natToLE 4 e.chunk_count ++
  (if e.chunk_count > 0 then
    (e.chunks.map (fun c =>
      natToLE 8 c.offset ++ natToLE 4 c.length ++ nonceCells c.nonce)).flatten
  else natToLE 8 e.data_offset ++ natToLE 8 e.data_length)

/-- serialize_index: the calloc-ed buffer of exactly `capacity` bytes (the
reported pt length), count field carrying the padding flag, zero padding
after the last entry. -/
def serialize_index (entries : List VaultEntry) (capacity : Nat) :
    Except Vres (List Nat) :=
  if entries.length > VAULT_INDEX_COUNT_MASK then .error .invalidParam
  else
    let required := calculate_index_plaintext_size entries
    let capacity := if capacity = 0 then required else capacity
    if capacity < required then .error .invalidParam
    else
      let body := natToLE 4 (entries.length + VAULT_INDEX_PAD_FLAG) ++
        (entries.map serializeEntry).flatten
      .ok (body ++ List.replicate (capacity - body.length) 0)

/-- vault_payload_t: one blob for TEXT/IMAGE, ciphertext chunks for VIDEO. -/
structure VaultPayload where
  data : List Nat
  chunks : List (List Nat)
deriving DecidableEq, Repr

/-- The payload bytes as laid on disk (chunks are written back to back). -/
def payloadBytesOf (e : VaultEntry) (p : VaultPayload) : List Nat :=
  if e.chunk_count > 0 then p.chunks.flatten else p.data

/-- The offset-assignment loop over the new entry's chunk table: each chunk
record gets the running offset and the ciphertext length, keeping its
nonce. -/
def placeChunks (base : Nat) : List VaultChunk → List (List Nat) →
    List VaultChunk
  | [], _ => []
  | _, [] => []
  | c :: cs, ct :: cts =>
      { offset := base, length := ct.length, nonce := c.nonce } ::
        placeChunks (base + ct.length) cs cts

/-- The deep-copied new entry with its on-disk offsets filled in. -/
def placeEntry (e : VaultEntry) (p : VaultPayload) (base : Nat) : VaultEntry :=
  if e.chunk_count > 0 then
    { e with chunks := placeChunks base e.chunks p.chunks }
  else
    { e with data_offset := base, data_length := p.data.length }

/-- The offset shift of the slow (index-expansion) path. -/
def shiftEntry (delta : Int) (e : VaultEntry) : VaultEntry :=
  if e.chunk_count > 0 then
    { e with chunks := e.chunks.map (fun c =>
        { c with offset := ((c.offset : Int) + delta).toNat }) }
  else { e with data_offset := ((e.data_offset : Int) + delta).toNat }

/-- The header the rewrite path emits for the current format
(write_header_for_current_format): its byte content is opaque to every
property below — only its size is observable through the data layout — so
the emitted bytes are abstracted to zero cells of the format's header
size. -/
def write_header_size (g : VaultState) : Nat :=
  if g.header_is_journal then
    28 + VAULT_JOURNAL_SLOT_COUNT * SIZEOF_JOURNAL_SLOT
  else
    header_total_size
      ⟨[], 0, 0, 0, 0, 0, 0,
       if g.wrapped_mk_len > 0 then g.wrapped_mk_len else WRAPPED_MK_SIZE,
       [], 0⟩

/-- The rewrite path of vault_append_entry (label rewrite_path,
vault_container.c:2635-2808): shift every offset by the index-section
delta, serialize at the grown capacity, rebuild the whole container into
a temp file (fresh header, new index section, copied data region, new
payload, dummy hash) and rename it over the vault. -/
def appendSlowPath (g : VaultState) (file : List Nat)
    (new_entries : List VaultEntry) (payloadBytes : List Nat)
    (old_iss old_data_start old_data_size new_capacity rng : Nat) :
    Vres × VaultState × List Nat × Nat :=
  let new_iss := VAULT_NONCE_LEN + 8 + (new_capacity + VAULT_TAG_LEN)
  let delta : Int := (new_iss : Int) - (old_iss : Int)
  let shifted := new_entries.map (shiftEntry delta)
  match serialize_index shifted new_capacity with
  | .error e => (e, g, file, rng)
  | .ok index_pt =>
      let ct_len := index_pt.length + VAULT_TAG_LEN
      let index_ct := aeadEncrypt g.master_key rng [] index_pt
      let hdrBytes := List.replicate (write_header_size g) 0
      let newFile := hdrBytes ++ nonceCells rng ++ natToLE 8 ct_len ++
        index_ct ++ listSlice file old_data_start old_data_size ++
        payloadBytes ++ List.replicate VAULT_HASH_LEN 0
      let lastE := shifted.getLastD default
      let new_entry_start :=
        if lastE.chunk_count > 0 then (lastE.chunks.headD default).offset
        else lastE.data_offset
      (.ok,
       { g with
          entries := shifted
          header_size := write_header_size g
          index_capacity := index_pt.length
          index_is_padded := true
          total_size := new_entry_start + payloadBytes.length + VAULT_HASH_LEN
          free_space := 0 },
       newFile, rng + 1)

/-- vault_append_entry (vault_container.c:2385-2830). The randomness
supply feeds the index nonce. Allocation and I/O faults are not modelled;
the short read of the old index section header is. -/
def vault_append_entry (g : VaultState) (file : List Nat)
    (new_entry : VaultEntry) (payload : VaultPayload) (rng : Nat) :
    Vres × VaultState × List Nat × Nat :=
  if ¬g.is_open ∨ g.path = none then (.notOpen, g, file, rng)
  else
    let file_size := file.length
    let content_size :=
      if file_size > VAULT_HASH_LEN then file_size - VAULT_HASH_LEN
      else file_size
    let header_size := g.header_size
    if file.length < header_size + VAULT_NONCE_LEN + 8 then (.ioErr, g, file, rng)
    else
      let old_idx_ct_len := readLE file (header_size + VAULT_NONCE_LEN) 8
      let old_iss := VAULT_NONCE_LEN + 8 + old_idx_ct_len
      let old_data_start := header_size + old_iss
      let old_data_size :=
        if content_size > old_data_start then content_size - old_data_start
        else 0
      let new_data_offset := old_data_start + old_data_size
      let placed := placeEntry new_entry payload new_data_offset
      let pbytes := payloadBytesOf new_entry payload
      let new_entries := g.entries ++ [placed]
      let required := calculate_index_plaintext_size new_entries
      let old_capacity :=
        if old_idx_ct_len > VAULT_TAG_LEN then old_idx_ct_len - VAULT_TAG_LEN
        else 0
      let capacity0 :=
        if g.index_capacity > 0 then g.index_capacity else old_capacity
      let capacity :=
        if old_capacity > 0 ∧ old_capacity ≠ capacity0 then old_capacity
        else capacity0
      if capacity < required then
        appendSlowPath g file new_entries pbytes old_iss old_data_start
          old_data_size (index_choose_capacity required capacity) rng
      else
        match serialize_index new_entries capacity with
        | .error e => (e, g, file, rng)
        | .ok index_pt =>
            let ct_len := index_pt.length + VAULT_TAG_LEN
            if old_idx_ct_len ≠ ct_len then
              appendSlowPath g file new_entries pbytes old_iss old_data_start
                old_data_size (index_choose_capacity required capacity) rng
            else
              let index_ct := aeadEncrypt g.master_key rng [] index_pt
              let f1 := writeAt file (old_data_start + old_data_size) pbytes
              let f2 := writeAt f1
                (old_data_start + old_data_size + pbytes.length)
                (List.replicate VAULT_HASH_LEN 0)
              let f3 := writeAt f2 header_size
                (nonceCells rng ++ natToLE 8 ct_len ++ index_ct)
              (.ok,
               { g with
                  entries := new_entries
                  index_capacity := index_pt.length
                  index_is_padded := true
                  total_size := old_data_start + old_data_size +
                    pbytes.length + VAULT_HASH_LEN
                  free_space := 0 },
               f3, rng + 1)

/-! ## Building entries (vault_index.c) -/

/-- build_text_image_entry. The randomness supply yields, in call order:
the DEK, the file id, the DEK-wrap nonce and the content nonce. The AAD
is (vault_id, file_id, chunk 0) for both the wrap and the content. -/
def build_text_image_entry (g : VaultState) (data : List Nat) (ty : Nat)
    (name mime : List Nat) (rng now : Nat) :
    (VaultEntry × VaultPayload) × Nat :=
  let dek := rng
  let fileId := rng + 1
  let dekNonce := rng + 2
  let contentNonce := rng + 3
  let entry : VaultEntry :=
    { file_id := fileId
      type := ty
      created_at := now
      name := name
      mime := mime
      size := data.length
      wrapped_dek := nonceCells dekNonce ++
        aeadEncrypt g.master_key dekNonce (aadBytes g.vault_id fileId 0)
          (keyCells dek)
      data_offset := 0
      data_length := 0
      chunks := [] }
  let blob := nonceCells contentNonce ++
    aeadEncrypt dek contentNonce (aadBytes g.vault_id fileId 0) data
  ((entry, { data := blob, chunks := [] }), rng + 4)

/-- build_video_entry: 1 MiB plaintext chunks, each encrypted under the
DEK with AAD (vault_id, file_id, i); chunk i's nonce is rng + 3 + i. The
chunk ciphertext carries no nonce prefix — the nonce lives in the chunk
table. -/
def build_video_entry (g : VaultState) (data : List Nat)
    (name mime : List Nat) (rng now : Nat) :
    (VaultEntry × VaultPayload) × Nat :=
  let dek := rng
  let fileId := rng + 1
  let dekNonce := rng + 2
  let cc := (data.length + VAULT_CHUNK_SIZE - 1) / VAULT_CHUNK_SIZE
  let entryChunks := (List.range cc).map (fun i =>
    ({ offset := 0
       length :=
         ((data.drop (i * VAULT_CHUNK_SIZE)).take VAULT_CHUNK_SIZE).length +
           VAULT_TAG_LEN
       nonce := rng + 3 + i } : VaultChunk))
  let ctChunks := (List.range cc).map (fun i =>
    aeadEncrypt dek (rng + 3 + i) (aadBytes g.vault_id fileId i)
      ((data.drop (i * VAULT_CHUNK_SIZE)).take VAULT_CHUNK_SIZE))
  let entry : VaultEntry :=
    { file_id := fileId
      type := VAULT_FILE_TYPE_VIDEO
      created_at := now
      name := name
      mime := mime
      size := data.length
      wrapped_dek := nonceCells dekNonce ++
        aeadEncrypt g.master_key dekNonce (aadBytes g.vault_id fileId 0)
          (keyCells dek)
      data_offset := 0
      data_length := 0
      chunks := entryChunks }
  ((entry, { data := [], chunks := ctChunks }), rng + 3 + cc)

/-- vault_import_file (vault_index.c:70-129): open/param/type gates — no
check of the name — then build the entry and append it. The file id is
copied out only on success. -/
def vault_import_file (g : VaultState) (file : List Nat) (data : List Nat)
    (ty : Nat) (name mime : List Nat) (rng now : Nat) :
    Vres × Option Nat × VaultState × List Nat × Nat :=
  if ¬g.is_open then (.notOpen, none, g, file, rng)
  else if data.length = 0 then (.invalidParam, none, g, file, rng)
  else if ty ≠ VAULT_FILE_TYPE_TXT ∧ ty ≠ VAULT_FILE_TYPE_IMG ∧
      ty ≠ VAULT_FILE_TYPE_VIDEO then
    (.invalidParam, none, g, file, rng)
  else
    let built :=
      if ty = VAULT_FILE_TYPE_VIDEO then build_video_entry g data name mime rng now
      else build_text_image_entry g data ty name mime rng now
    match vault_append_entry g file built.1.1 built.1.2 built.2 with
    | (.ok, g1, file1, rng2) => (.ok, some built.1.1.file_id, g1, file1, rng2)
    | (e, g1, file1, rng2) => (e, none, g1, file1, rng2)

/-! ## Layout lemmas for the append path -/

theorem listSlice_append (pre mid post : List Nat) :
    listSlice (pre ++ (mid ++ post)) pre.length mid.length = mid := by
  unfold listSlice
  rw [List.drop_left, List.take_left]

theorem readLE_append (pre mid post : List Nat) (k : Nat) (h : mid.length = k) :
    readLE (pre ++ (mid ++ post)) pre.length k = leToNat mid := by
  unfold readLE
  rw [List.drop_left, List.take_left' h]

theorem load_blob_append (pre mid post : List Nat) (h : mid ≠ []) :
    load_blob (pre ++ (mid ++ post)) pre.length mid.length = .ok mid := by
  unfold load_blob
  have h0 : ¬ mid.length = 0 := by simpa using h
  rw [if_neg h0, if_pos (by simp only [List.length_append]; omega),
    listSlice_append]

theorem writeAt_exact (pre post bytes : List Nat) :
    writeAt (pre ++ post) pre.length bytes =
      pre ++ (bytes ++ post.drop bytes.length) := by
  unfold writeAt
  rw [List.take_left, List.drop_append, List.append_assoc]

theorem find?_append_of_none {α} (l₁ l₂ : List α) (p : α → Bool)
    (h : ∀ a ∈ l₁, p a = false) : (l₁ ++ l₂).find? p = l₂.find? p := by
  induction l₁ with
  | nil => rfl
  | cons a l ih =>
      rw [List.cons_append, List.find?_cons_of_neg _ (by simp [h a])]
      exact ih (fun x hx => h x (by simp [hx]))

theorem getD_map_range {α} (f : Nat → α) (cc i : Nat) (h : i < cc) (d : α) :
    ((List.range cc).map f).getD i d = f i := by
  rw [List.getD_eq_getElem?_getD, List.getElem?_map, List.getElem?_range h]
  rfl

theorem sum_take_le (l : List Nat) (k : Nat) : (l.take k).sum ≤ l.sum := by
  induction l generalizing k with
  | nil => simp
  | cons a l ih =>
      cases k with
      | zero => simp
      | succ k => simpa using Nat.add_le_add_left (ih k) a

theorem chunkRec_flatten_length (cs : List VaultChunk) :
    ((cs.map (fun c => natToLE 8 c.offset ++ natToLE 4 c.length ++
      nonceCells c.nonce)).flatten).length =
      cs.length * (8 + 4 + VAULT_NONCE_LEN) := by
  induction cs with
  | nil => simp
  | cons c cs ih =>
      simp only [List.map_cons, List.flatten_cons, List.length_append,
        natToLE_length, nonceCells_length, ih]
      simp [VAULT_NONCE_LEN]
      ring

theorem serializeEntry_length (e : VaultEntry) :
    (serializeEntry e).length = entrySize e := by
  unfold serializeEntry entrySize
  by_cases hc : e.chunk_count > 0
  · rw [if_pos hc, if_pos hc]
    simp only [List.length_append, natToLE_length, idCells_length,
      List.length_cons, List.length_nil, chunkRec_flatten_length,
      VaultEntry.chunk_count]
    omega
  · rw [if_neg hc, if_neg hc]
    simp only [List.length_append, natToLE_length, idCells_length,
      List.length_cons, List.length_nil]
    omega

theorem serialize_index_ok (entries : List VaultEntry) (capacity : Nat)
    (hcnt : entries.length ≤ VAULT_INDEX_COUNT_MASK)
    (hcap : calculate_index_plaintext_size entries ≤ capacity) :
    ∃ pt, serialize_index entries capacity = .ok pt ∧ pt.length = capacity := by
  have hbody : (natToLE 4 (entries.length + VAULT_INDEX_PAD_FLAG) ++
      (entries.map serializeEntry).flatten).length =
      calculate_index_plaintext_size entries := by
    rw [List.length_append, natToLE_length, List.length_flatten, List.map_map]
    unfold calculate_index_plaintext_size
    congr 1
    simp [Function.comp_def, serializeEntry_length]
  have hreq4 : 4 ≤ calculate_index_plaintext_size entries := by
    unfold calculate_index_plaintext_size
    omega
  unfold serialize_index
  rw [if_neg (by omega)]
  dsimp only
  rw [if_neg (by omega : ¬ capacity = 0)]
  rw [if_neg (by omega)]
  refine ⟨_, rfl, ?_⟩
  rw [List.length_append, hbody, List.length_replicate]
  omega

theorem lt_ceil_mul (len N : Nat) (hN : 0 < N) :
    len ≤ ((len + N - 1) / N) * N := by
  have hdm : N * ((len + N - 1) / N) + (len + N - 1) % N = len + N - 1 :=
    Nat.div_add_mod _ N
  have hr : (len + N - 1) % N < N := Nat.mod_lt _ hN
  rw [Nat.mul_comm]
  omega

theorem range_map_chunks_flatten (N : Nat) (hN : 0 < N) :
    ∀ (cc : Nat) (data : List Nat), data.length ≤ cc * N →
    ((List.range cc).map (fun i => (data.drop (i * N)).take N)).flatten =
      data := by
  intro cc
  induction cc with
  | zero =>
      intro data h
      simp only [Nat.zero_mul, Nat.le_zero] at h
      simp [List.eq_nil_of_length_eq_zero h]
  | succ cc ih =>
      intro data h
      rw [List.range_succ_eq_map]
      simp only [List.map_cons, List.map_map, List.flatten_cons, Nat.zero_mul,
        List.drop_zero]
      have hfun : ((fun i => (data.drop (i * N)).take N) ∘ (· + 1)) =
          (fun i => ((data.drop N).drop (i * N)).take N) := by
        funext i
        simp only [Function.comp_def, List.drop_drop]
        congr 2
        ring
      rw [hfun, ih (data.drop N) (by
        rw [List.length_drop]
        rw [Nat.succ_mul] at h
        omega)]
      exact List.take_append_drop N data

/-! ## Placement lemmas -/

theorem placeChunks_length (b : Nat) (ecs : List VaultChunk)
    (cts : List (List Nat)) :
    (placeChunks b ecs cts).length = min ecs.length cts.length := by
  induction ecs generalizing b cts with
  | nil => simp [placeChunks]
  | cons c cs ih =>
      cases cts with
      | nil => simp [placeChunks]
      | cons ct cts =>
          simp [placeChunks, ih]
          omega

theorem placeChunks_shift (d : Nat) : ∀ (ecs : List VaultChunk)
    (cts : List (List Nat)) (b : Nat),
    (placeChunks b ecs cts).map (fun c =>
      { c with offset := ((c.offset : Int) + (d : Int)).toNat }) =
    placeChunks (b + d) ecs cts := by
  intro ecs
  induction ecs with
  | nil => intro cts b; simp [placeChunks]
  | cons c cs ih =>
      intro cts b
      cases cts with
      | nil => simp [placeChunks]
      | cons ct cts =>
          simp only [placeChunks, List.map_cons, ih]
          rw [show ((b : Int) + (d : Int)).toNat = b + d from by omega,
            Nat.add_right_comm]

theorem shiftEntry_file_id (d : Int) (e : VaultEntry) :
    (shiftEntry d e).file_id = e.file_id := by
  unfold shiftEntry
  split <;> rfl

theorem shiftEntry_entrySize (d : Int) (e : VaultEntry) :
    entrySize (shiftEntry d e) = entrySize e := by
  unfold shiftEntry
  split <;> simp [entrySize, VaultEntry.chunk_count]

theorem placeEntry_entrySize (e : VaultEntry) (p : VaultPayload) (base : Nat)
    (h : p.chunks.length = e.chunks.length) :
    entrySize (placeEntry e p base) = entrySize e := by
  unfold placeEntry
  split <;> simp [entrySize, VaultEntry.chunk_count, placeChunks_length, h]

theorem shiftEntry_placeEntry (e : VaultEntry) (p : VaultPayload)
    (base : Nat) (d : Nat) (h : p.chunks.length = e.chunks.length) :
    shiftEntry (d : Int) (placeEntry e p base) = placeEntry e p (base + d) := by
  by_cases hc : e.chunk_count > 0
  · have h1 : placeEntry e p base =
        { e with chunks := placeChunks base e.chunks p.chunks } := by
      unfold placeEntry
      rw [if_pos hc]
    have h2 : placeEntry e p (base + d) =
        { e with chunks := placeChunks (base + d) e.chunks p.chunks } := by
      unfold placeEntry
      rw [if_pos hc]
    rw [h1, h2]
    unfold shiftEntry
    rw [if_pos (show ({ e with
        chunks := placeChunks base e.chunks p.chunks } : VaultEntry).chunk_count
        > 0 from by
      unfold VaultEntry.chunk_count at hc ⊢
      simp only [placeChunks_length, h]
      omega)]
    simp only [placeChunks_shift]
  · have h1 : placeEntry e p base =
        { e with data_offset := base, data_length := p.data.length } := by
      unfold placeEntry
      rw [if_neg hc]
    have h2 : placeEntry e p (base + d) =
        { e with data_offset := base + d, data_length := p.data.length } := by
      unfold placeEntry
      rw [if_neg hc]
    rw [h1, h2]
    unfold shiftEntry
    rw [if_neg (show ¬ ({ e with data_offset := base, data_length := p.data.length } : VaultEntry).chunk_count > 0 from by
      unfold VaultEntry.chunk_count at hc ⊢
      exact hc)]
    have hb : ((base : Int) + (d : Int)).toNat = base + d := by omega
    simp [hb]

theorem writeAt_at (file pre post bytes : List Nat) (off : Nat)
    (hfile : file = pre ++ post) (hoff : off = pre.length) :
    writeAt file off bytes = pre ++ (bytes ++ post.drop bytes.length) := by
  subst hfile hoff
  exact writeAt_exact pre post bytes

theorem readLE_at (file pre mid post : List Nat) (off k : Nat)
    (hfile : file = pre ++ (mid ++ post)) (hoff : off = pre.length)
    (hk : mid.length = k) :
    readLE file off k = leToNat mid := by
  subst hfile hoff
  exact readLE_append pre mid post k hk

theorem listSlice_at (file pre mid post : List Nat) (off ln : Nat)
    (hfile : file = pre ++ (mid ++ post)) (hoff : off = pre.length)
    (hln : ln = mid.length) :
    listSlice file off ln = mid := by
  subst hfile hoff hln
  exact listSlice_append pre mid post

theorem load_blob_at (file pre mid post : List Nat) (off ln : Nat)
    (hfile : file = pre ++ (mid ++ post)) (hoff : off = pre.length)
    (hln : ln = mid.length) (hne : mid ≠ []) :
    load_blob file off ln = .ok mid := by
  subst hfile hoff hln
  exact load_blob_append pre mid post hne

/-- The read-back geometry of a placed chunk table: chunk i of
placeChunks keeps its nonce, takes the i-th ciphertext's length, and its
(offset, length) window inside pre ++ chunk ciphertexts ++ post is
exactly the i-th ciphertext. -/
theorem placeChunks_read (post : List Nat) :
    ∀ (cts : List (List Nat)) (ecs : List VaultChunk) (pre : List Nat)
      (i : Nat), ecs.length = cts.length → i < cts.length →
      ((placeChunks pre.length ecs cts).getD i default).length =
        (cts.getD i []).length ∧
      ((placeChunks pre.length ecs cts).getD i default).nonce =
        (ecs.getD i default).nonce ∧
      ((placeChunks pre.length ecs cts).getD i default).offset +
        ((placeChunks pre.length ecs cts).getD i default).length ≤
        (pre ++ (cts.flatten ++ post)).length ∧
      listSlice (pre ++ (cts.flatten ++ post))
        ((placeChunks pre.length ecs cts).getD i default).offset
        ((placeChunks pre.length ecs cts).getD i default).length =
        cts.getD i [] := by
  intro cts
  induction cts with
  | nil =>
      intro ecs pre i _ hi
      simp at hi
  | cons ct cts ih =>
      intro ecs pre i hlen hi
      match ecs with
      | [] => simp at hlen
      | ec :: ecs =>
          have hfile : pre ++ ((ct :: cts).flatten ++ post) =
              pre ++ (ct ++ (cts.flatten ++ post)) := by
            simp [List.append_assoc]
          cases i with
          | zero =>
              simp only [placeChunks, List.getD_cons_zero]
              refine ⟨trivial, trivial, ?_, ?_⟩
              · rw [hfile]
                simp only [List.length_append]
                omega
              · rw [hfile]
                exact listSlice_append pre ct (cts.flatten ++ post)
          | succ i =>
              have hlen' : ecs.length = cts.length := by simpa using hlen
              have hi' : i < cts.length := by simpa using hi
              have htail := ih ecs (pre ++ ct) i hlen' hi'
              rw [show (pre ++ ct) ++ (cts.flatten ++ post) =
                pre ++ ((ct :: cts).flatten ++ post) from by
                  simp [List.append_assoc]] at htail
              rw [List.length_append] at htail
              simp only [placeChunks, List.getD_cons_succ]
              exact htail

theorem calc_append_place (l : List VaultEntry) (e : VaultEntry)
    (p : VaultPayload) (base : Nat) (h : p.chunks.length = e.chunks.length) :
    calculate_index_plaintext_size (l ++ [placeEntry e p base]) =
    calculate_index_plaintext_size (l ++ [e]) := by
  unfold calculate_index_plaintext_size
  simp [placeEntry_entrySize e p base h]

/-- The fast (in-place) path of vault_append_entry on a well-formed
container whose index is padded to the stored capacity: the payload is
appended at the end of the data region, the index is re-encrypted in
place, and the new entry joins the entry list with its offsets pointing
at the appended payload. -/
theorem append_fast_spec (g : VaultState) (n0 ctLen rng : Nat)
    (hdr ct0 dataR hsh : List Nat) (e : VaultEntry) (p : VaultPayload)
    (hopen : g.is_open = true) (hpath : g.path ≠ none)
    (hhdr : hdr.length = g.header_size)
    (hct0 : ct0.length = ctLen)
    (hhsh : hsh.length = VAULT_HASH_LEN)
    (hctb : ctLen < 256 ^ 8)
    (hcoh : ctLen = g.index_capacity + VAULT_TAG_LEN)
    (hicap : 0 < g.index_capacity)
    (hcnt : g.entries.length + 1 ≤ VAULT_INDEX_COUNT_MASK)
    (hplen : p.chunks.length = e.chunks.length)
    (hreq : calculate_index_plaintext_size (g.entries ++ [e]) ≤
      g.index_capacity) :
    ∃ pt : List Nat, pt.length = g.index_capacity ∧
    vault_append_entry g
      (hdr ++ (nonceCells n0 ++ (natToLE 8 ctLen ++ (ct0 ++ (dataR ++ hsh)))))
      e p rng =
      (.ok,
       { g with
          entries := g.entries ++ [placeEntry e p
            (g.header_size + (VAULT_NONCE_LEN + 8 + ctLen) + dataR.length)]
          index_capacity := g.index_capacity
          index_is_padded := true
          total_size := g.header_size + (VAULT_NONCE_LEN + 8 + ctLen) +
            dataR.length + (payloadBytesOf e p).length + VAULT_HASH_LEN
          free_space := 0 },
       hdr ++ (nonceCells rng ++ (natToLE 8 ctLen ++
         (aeadEncrypt g.master_key rng [] pt ++
           (dataR ++ (payloadBytesOf e p ++
             List.replicate VAULT_HASH_LEN 0))))),
       rng + 1) := by
  have h24 : VAULT_NONCE_LEN = 24 := rfl
  have h16 : VAULT_TAG_LEN = 16 := rfl
  have h32 : VAULT_HASH_LEN = 32 := rfl
  obtain ⟨pt, hser, hptlen⟩ := serialize_index_ok
    (g.entries ++ [placeEntry e p
      (g.header_size + (VAULT_NONCE_LEN + 8 + ctLen) + dataR.length)])
    g.index_capacity
    (by simpa using hcnt)
    (by rw [calc_append_place _ _ _ _ hplen]; exact hreq)
  refine ⟨pt, hptlen, ?_⟩
  set L := hdr ++ (nonceCells n0 ++ (natToLE 8 ctLen ++ (ct0 ++ (dataR ++ hsh))))
    with hLdef
  have hLlen : L.length = g.header_size + VAULT_NONCE_LEN + 8 + ctLen +
      dataR.length + VAULT_HASH_LEN := by
    rw [hLdef]
    simp only [List.length_append, hhdr, hct0, hhsh, nonceCells_length,
      natToLE_length]
    omega
  unfold vault_append_entry
  rw [if_neg (by simp [hopen, hpath])]
  dsimp only
  have hreadct : readLE L (g.header_size + VAULT_NONCE_LEN) 8 = ctLen := by
    rw [readLE_at L (hdr ++ nonceCells n0) (natToLE 8 ctLen)
      (ct0 ++ (dataR ++ hsh)) _ 8
      (by rw [hLdef]; simp [List.append_assoc])
      (by simp [List.length_append, hhdr, nonceCells_length])
      (natToLE_length 8 _)]
    exact leToNat_natToLE 8 ctLen hctb
  rw [if_neg (by rw [hLlen]; omega)]
  rw [hreadct]
  have hcs : (if L.length > VAULT_HASH_LEN then L.length - VAULT_HASH_LEN
      else L.length) =
      g.header_size + (VAULT_NONCE_LEN + 8 + ctLen) + dataR.length := by
    rw [hLlen, if_pos (by omega)]
    omega
  rw [hcs]
  have hods : (if g.header_size + (VAULT_NONCE_LEN + 8 + ctLen) + dataR.length >
      g.header_size + (VAULT_NONCE_LEN + 8 + ctLen) then
      g.header_size + (VAULT_NONCE_LEN + 8 + ctLen) + dataR.length -
        (g.header_size + (VAULT_NONCE_LEN + 8 + ctLen))
      else 0) = dataR.length := by
    split <;> omega
  rw [hods]
  have hoc : (if ctLen > VAULT_TAG_LEN then ctLen - VAULT_TAG_LEN else 0) =
      g.index_capacity := by
    split <;> omega
  rw [hoc]
  rw [if_pos hicap]
  rw [if_neg (show ¬(g.index_capacity > 0 ∧ g.index_capacity ≠ g.index_capacity) from by simp)]
  rw [calc_append_place _ _ _ _ hplen]
  rw [if_neg (show ¬(g.index_capacity < calculate_index_plaintext_size (g.entries ++ [e])) from by omega)]
  rw [hser]
  dsimp only
  rw [hptlen]
  rw [if_neg (show ¬(ctLen ≠ g.index_capacity + VAULT_TAG_LEN) from by omega)]
  rw [writeAt_at L
    (hdr ++ (nonceCells n0 ++ (natToLE 8 ctLen ++ (ct0 ++ dataR)))) hsh
    (payloadBytesOf e p) _
    (by rw [hLdef]; simp [List.append_assoc])
    (by simp only [List.length_append, hhdr, hct0, nonceCells_length,
      natToLE_length]; omega)]
  rw [writeAt_at _
    ((hdr ++ (nonceCells n0 ++ (natToLE 8 ctLen ++ (ct0 ++ dataR)))) ++
      payloadBytesOf e p)
    (hsh.drop (payloadBytesOf e p).length)
    (List.replicate VAULT_HASH_LEN 0) _
    (by simp [List.append_assoc])
    (by simp only [List.length_append, hhdr, hct0, nonceCells_length,
      natToLE_length]; omega)]
  rw [List.length_replicate]
  rw [List.drop_eq_nil_of_le (by rw [List.length_drop, hhsh]; omega)]
  rw [List.append_nil]
  rw [← hcoh]
  rw [writeAt_at _ hdr
    (nonceCells n0 ++ (natToLE 8 ctLen ++ (ct0 ++ (dataR ++
      (payloadBytesOf e p ++ List.replicate VAULT_HASH_LEN 0)))))
    (nonceCells rng ++ natToLE 8 ctLen ++ aeadEncrypt g.master_key rng [] pt)
    g.header_size
    (by simp [List.append_assoc])
    hhdr.symm]
  rw [show nonceCells n0 ++ (natToLE 8 ctLen ++ (ct0 ++ (dataR ++
      (payloadBytesOf e p ++ List.replicate VAULT_HASH_LEN 0)))) =
      (nonceCells n0 ++ natToLE 8 ctLen ++ ct0) ++ (dataR ++
      (payloadBytesOf e p ++ List.replicate VAULT_HASH_LEN 0)) from by
    simp [List.append_assoc]]
  rw [List.drop_left' (show (nonceCells n0 ++ natToLE 8 ctLen ++ ct0).length =
      (nonceCells rng ++ natToLE 8 ctLen ++
        aeadEncrypt g.master_key rng [] pt).length from by
    simp only [List.length_append, nonceCells_length, natToLE_length, hct0,
      aeadEncrypt_length, hptlen]
    omega)]
  simp only [List.append_assoc]

theorem index_choose_capacity_ge (required current : Nat) :
    required ≤ index_choose_capacity required current := by
  unfold index_choose_capacity
  dsimp only
  by_cases h1 : current < required
  · rw [if_pos h1]
    have hmx := Nat.le_max_left (required + required / 2)
      (required + VAULT_INDEX_GROWTH_SLACK)
    by_cases h2 : max (required + required / 2)
        (required + VAULT_INDEX_GROWTH_SLACK) < VAULT_INDEX_MIN_CAPACITY
    · rw [if_pos h2]
      omega
    · rw [if_neg h2]
      omega
  · rw [if_neg h1]
    by_cases h2 : current < VAULT_INDEX_MIN_CAPACITY
    · rw [if_pos h2]
      omega
    · rw [if_neg h2]
      omega

theorem calc_map_shift (l : List VaultEntry) (d : Int) :
    calculate_index_plaintext_size (l.map (shiftEntry d)) =
    calculate_index_plaintext_size l := by
  unfold calculate_index_plaintext_size
  rw [List.map_map]
  rw [show entrySize ∘ shiftEntry d = entrySize from
    funext (fun x => shiftEntry_entrySize d x)]

theorem placeEntry_start (e : VaultEntry) (p : VaultPayload) (B : Nat)
    (h : p.chunks.length = e.chunks.length) :
    (if (placeEntry e p B).chunk_count > 0 then
      ((placeEntry e p B).chunks.headD default).offset
    else (placeEntry e p B).data_offset) = B := by
  unfold placeEntry
  by_cases hc : e.chunk_count > 0
  · rw [if_pos hc]
    have hcc : ({ e with chunks := placeChunks B e.chunks p.chunks } :
        VaultEntry).chunk_count > 0 := by
      unfold VaultEntry.chunk_count at hc ⊢
      simp only [placeChunks_length, h]
      omega
    rw [if_pos hcc]
    unfold VaultEntry.chunk_count at hc
    match he : e.chunks, hp : p.chunks with
    | [], _ => rw [he] at hc; simp at hc
    | c :: cs, [] => rw [he, hp] at h; simp at h
    | c :: cs, ct :: cts => simp [placeChunks]
  · rw [if_neg hc]
    rw [if_neg (show ¬ ({ e with data_offset := B, data_length := p.data.length } : VaultEntry).chunk_count > 0 from by
      unfold VaultEntry.chunk_count at hc ⊢
      exact hc)]

theorem getLastD_concat' {α} (l : List α) (a d : α) :
    (l ++ [a]).getLastD d = a := by
  induction l generalizing d with
  | nil => rfl
  | cons x l ih =>
      rw [List.cons_append, List.getLastD_cons]
      exact ih x

/-- The slow (index-expansion) path of vault_append_entry: every offset
is shifted by the index-section growth, the container is rebuilt with a
fresh header and grown index, the data region is copied and the payload
appended. -/
theorem append_slow_spec (g : VaultState) (n0 ctLen rng : Nat)
    (hdr ct0 dataR hsh : List Nat) (e : VaultEntry) (p : VaultPayload)
    (hopen : g.is_open = true) (hpath : g.path ≠ none)
    (hhdr : hdr.length = g.header_size)
    (hct0 : ct0.length = ctLen)
    (hhsh : hsh.length = VAULT_HASH_LEN)
    (hctb : ctLen < 256 ^ 8)
    (hcoh : ctLen = g.index_capacity + VAULT_TAG_LEN)
    (hicap : 0 < g.index_capacity)
    (hcnt : g.entries.length + 1 ≤ VAULT_INDEX_COUNT_MASK)
    (hplen : p.chunks.length = e.chunks.length)
    (hwh : write_header_size g = g.header_size)
    (hreq : g.index_capacity <
      calculate_index_plaintext_size (g.entries ++ [e])) :
    ∃ pt : List Nat,
    pt.length = index_choose_capacity
      (calculate_index_plaintext_size (g.entries ++ [e])) g.index_capacity ∧
    vault_append_entry g
      (hdr ++ (nonceCells n0 ++ (natToLE 8 ctLen ++ (ct0 ++ (dataR ++ hsh)))))
      e p rng =
      (.ok,
       { g with
          entries := g.entries.map (shiftEntry
              ((index_choose_capacity
                (calculate_index_plaintext_size (g.entries ++ [e]))
                g.index_capacity + VAULT_TAG_LEN - ctLen : Nat) : Int)) ++
            [placeEntry e p
              (g.header_size + (VAULT_NONCE_LEN + 8 + ctLen) + dataR.length +
                (index_choose_capacity
                  (calculate_index_plaintext_size (g.entries ++ [e]))
                  g.index_capacity + VAULT_TAG_LEN - ctLen))]
          header_size := g.header_size
          index_capacity := index_choose_capacity
            (calculate_index_plaintext_size (g.entries ++ [e]))
            g.index_capacity
          index_is_padded := true
          total_size := g.header_size + (VAULT_NONCE_LEN + 8 + ctLen) +
            dataR.length +
            (index_choose_capacity
              (calculate_index_plaintext_size (g.entries ++ [e]))
              g.index_capacity + VAULT_TAG_LEN - ctLen) +
            (payloadBytesOf e p).length + VAULT_HASH_LEN
          free_space := 0 },
       List.replicate g.header_size 0 ++ (nonceCells rng ++
         (natToLE 8 (index_choose_capacity
            (calculate_index_plaintext_size (g.entries ++ [e]))
            g.index_capacity + VAULT_TAG_LEN) ++
         (aeadEncrypt g.master_key rng [] pt ++
           (dataR ++ (payloadBytesOf e p ++
             List.replicate VAULT_HASH_LEN 0))))),
       rng + 1) := by
  have h24 : VAULT_NONCE_LEN = 24 := rfl
  have h16 : VAULT_TAG_LEN = 16 := rfl
  have h32 : VAULT_HASH_LEN = 32 := rfl
  have hge := index_choose_capacity_ge
    (calculate_index_plaintext_size (g.entries ++ [e])) g.index_capacity
  have hdnn : ctLen ≤ index_choose_capacity
      (calculate_index_plaintext_size (g.entries ++ [e])) g.index_capacity +
      VAULT_TAG_LEN := by omega
  obtain ⟨pt, hser, hptlen⟩ := serialize_index_ok
    (g.entries.map (shiftEntry
        ((index_choose_capacity
          (calculate_index_plaintext_size (g.entries ++ [e]))
          g.index_capacity + VAULT_TAG_LEN - ctLen : Nat) : Int)) ++
      [placeEntry e p
        (g.header_size + (VAULT_NONCE_LEN + 8 + ctLen) + dataR.length +
          (index_choose_capacity
            (calculate_index_plaintext_size (g.entries ++ [e]))
            g.index_capacity + VAULT_TAG_LEN - ctLen))])
    (index_choose_capacity
      (calculate_index_plaintext_size (g.entries ++ [e])) g.index_capacity)
    (by simpa using hcnt)
    (by
      rw [show (g.entries.map (shiftEntry
          ((index_choose_capacity
            (calculate_index_plaintext_size (g.entries ++ [e]))
            g.index_capacity + VAULT_TAG_LEN - ctLen : Nat) : Int)) ++
        [placeEntry e p
          (g.header_size + (VAULT_NONCE_LEN + 8 + ctLen) + dataR.length +
            (index_choose_capacity
              (calculate_index_plaintext_size (g.entries ++ [e]))
              g.index_capacity + VAULT_TAG_LEN - ctLen))]) =
        ((g.entries ++ [placeEntry e p
          (g.header_size + (VAULT_NONCE_LEN + 8 + ctLen) +
            dataR.length)]).map (shiftEntry
          ((index_choose_capacity
            (calculate_index_plaintext_size (g.entries ++ [e]))
            g.index_capacity + VAULT_TAG_LEN - ctLen : Nat) : Int))) from by
        rw [List.map_append, List.map_cons, List.map_nil,
          shiftEntry_placeEntry _ _ _ _ hplen]]
      rw [calc_map_shift, calc_append_place _ _ _ _ hplen]
      omega)
  refine ⟨pt, hptlen, ?_⟩
  set L := hdr ++ (nonceCells n0 ++ (natToLE 8 ctLen ++ (ct0 ++ (dataR ++ hsh))))
    with hLdef
  have hLlen : L.length = g.header_size + VAULT_NONCE_LEN + 8 + ctLen +
      dataR.length + VAULT_HASH_LEN := by
    rw [hLdef]
    simp only [List.length_append, hhdr, hct0, hhsh, nonceCells_length,
      natToLE_length]
    omega
  unfold vault_append_entry
  rw [if_neg (by simp [hopen, hpath])]
  dsimp only
  have hreadct : readLE L (g.header_size + VAULT_NONCE_LEN) 8 = ctLen := by
    rw [readLE_at L (hdr ++ nonceCells n0) (natToLE 8 ctLen)
      (ct0 ++ (dataR ++ hsh)) _ 8
      (by rw [hLdef]; simp [List.append_assoc])
      (by simp [List.length_append, hhdr, nonceCells_length])
      (natToLE_length 8 _)]
    exact leToNat_natToLE 8 ctLen hctb
  rw [if_neg (by rw [hLlen]; omega)]
  rw [hreadct]
  have hcs : (if L.length > VAULT_HASH_LEN then L.length - VAULT_HASH_LEN
      else L.length) =
      g.header_size + (VAULT_NONCE_LEN + 8 + ctLen) + dataR.length := by
    rw [hLlen, if_pos (by omega)]
    omega
  rw [hcs]
  have hods : (if g.header_size + (VAULT_NONCE_LEN + 8 + ctLen) + dataR.length >
      g.header_size + (VAULT_NONCE_LEN + 8 + ctLen) then
      g.header_size + (VAULT_NONCE_LEN + 8 + ctLen) + dataR.length -
        (g.header_size + (VAULT_NONCE_LEN + 8 + ctLen))
      else 0) = dataR.length := by
    split <;> omega
  rw [hods]
  have hoc : (if ctLen > VAULT_TAG_LEN then ctLen - VAULT_TAG_LEN else 0) =
      g.index_capacity := by
    split <;> omega
  rw [hoc]
  rw [if_pos hicap]
  rw [if_neg (show ¬(g.index_capacity > 0 ∧ g.index_capacity ≠ g.index_capacity) from by simp)]
  rw [calc_append_place _ _ _ _ hplen]
  rw [if_pos (show g.index_capacity < calculate_index_plaintext_size (g.entries ++ [e]) from hreq)]
  unfold appendSlowPath
  dsimp only
  rw [show ((VAULT_NONCE_LEN + 8 + (index_choose_capacity
      (calculate_index_plaintext_size (g.entries ++ [e]))
      g.index_capacity + VAULT_TAG_LEN) : Nat) : Int) -
      ((VAULT_NONCE_LEN + 8 + ctLen : Nat) : Int) =
      ((index_choose_capacity
        (calculate_index_plaintext_size (g.entries ++ [e]))
        g.index_capacity + VAULT_TAG_LEN - ctLen : Nat) : Int) from by omega]
  rw [List.map_append, List.map_cons, List.map_nil,
    shiftEntry_placeEntry _ _ _ _ hplen]
  rw [hser]
  dsimp only
  rw [listSlice_at L
    (hdr ++ (nonceCells n0 ++ (natToLE 8 ctLen ++ ct0))) dataR hsh _ _
    (by rw [hLdef]; simp [List.append_assoc])
    (by simp only [List.length_append, hhdr, hct0, nonceCells_length,
      natToLE_length]; omega)
    rfl]
  rw [getLastD_concat']
  rw [placeEntry_start _ _ _ hplen]
  rw [hptlen, hwh]
  simp only [List.append_assoc]

theorem unwrap_dek_ok (g2 : VaultState) (entry : VaultEntry) (dn dek : Nat)
    (hdek : entry.wrapped_dek = nonceCells dn ++ aeadEncrypt g2.master_key dn
      (aadBytes g2.vault_id entry.file_id 0) (keyCells dek)) :
    unwrap_dek g2 entry = .ok dek := by
  unfold unwrap_dek
  rw [hdek]
  rw [if_neg (by
    simp only [List.length_append, nonceCells_length, aeadEncrypt_length,
      keyCells_length]
    decide)]
  dsimp only
  rw [show (nonceCells dn ++ aeadEncrypt g2.master_key dn
      (aadBytes g2.vault_id entry.file_id 0) (keyCells dek)).headD 0 = dn from
    by simp [nonceCells]]
  rw [List.drop_left' (nonceCells_length dn)]
  rw [vault_aead_decrypt_encrypt]
  simp [keyCells]

theorem findEntry_placed (g2 : VaultState) (init : List VaultEntry)
    (last : VaultEntry) (fid : Nat)
    (hentries : g2.entries = init ++ [last])
    (hfid : last.file_id = fid)
    (hfresh : ∀ e' ∈ init, e'.file_id ≠ fid) :
    findEntry g2 fid = some last := by
  unfold findEntry
  rw [hentries, find?_append_of_none _ _ _ (by
    intro a ha
    simpa using hfresh a ha)]
  simp [List.find?_cons, hfid]

/-- Reading back a freshly placed non-chunked entry whose payload sits at
its data_offset window. -/
theorem read_file_core (g2 : VaultState) (init : List VaultEntry)
    (e : VaultEntry) (p : VaultPayload) (PRE POST data F : List Nat)
    (dn cn dek B : Nat)
    (hB : B = PRE.length)
    (hF : F = PRE ++ (p.data ++ POST))
    (hopen2 : g2.is_open = true)
    (hentries : g2.entries = init ++ [placeEntry e p B])
    (hcc : e.chunk_count = 0)
    (hpdata : p.data = nonceCells cn ++
      aeadEncrypt dek cn (aadBytes g2.vault_id e.file_id 0) data)
    (hfresh : ∀ e' ∈ init, e'.file_id ≠ e.file_id)
    (hdek : e.wrapped_dek = nonceCells dn ++ aeadEncrypt g2.master_key dn
      (aadBytes g2.vault_id e.file_id 0) (keyCells dek)) :
    vault_read_file g2 F e.file_id = (.ok, some data) := by
  subst hB hF
  have hplaced : placeEntry e p PRE.length =
      { e with data_offset := PRE.length, data_length := p.data.length } := by
    unfold placeEntry
    rw [if_neg (by omega)]
  unfold vault_read_file
  rw [if_neg (by simp [hopen2])]
  rw [findEntry_placed g2 init _ e.file_id hentries
    (by rw [hplaced]) hfresh]
  rw [hplaced]
  dsimp only
  rw [if_neg (show ¬ ({ e with data_offset := PRE.length, data_length := p.data.length } : VaultEntry).chunk_count > 0 from by
    have hrc : ({ e with data_offset := PRE.length, data_length := p.data.length } : VaultEntry).chunk_count = e.chunk_count := rfl
    omega)]
  rw [unwrap_dek_ok g2 { e with data_offset := PRE.length, data_length := p.data.length } dn dek hdek]
  dsimp only
  rw [load_blob_at _ PRE p.data POST _ _ rfl rfl rfl
    (by rw [hpdata]; simp [nonceCells])]
  dsimp only
  rw [if_neg (by
    rw [hpdata]
    simp only [List.length_append, nonceCells_length, aeadEncrypt_length]
    omega)]
  rw [hpdata]
  rw [show (nonceCells cn ++ aeadEncrypt dek cn
      (aadBytes g2.vault_id e.file_id 0) data).headD 0 = cn from by
    simp [nonceCells]]
  rw [List.drop_left' (nonceCells_length cn)]
  rw [vault_aead_decrypt_encrypt]

/-- Reading back chunk i of a freshly placed chunked entry whose chunk
ciphertexts lie back to back at the assigned offsets. -/
theorem read_chunk_core (g2 : VaultState) (init : List VaultEntry)
    (e : VaultEntry) (p : VaultPayload) (PRE POST F : List Nat)
    (dn dek B : Nat) (piece : Nat → List Nat)
    (hB : B = PRE.length)
    (hF : F = PRE ++ (p.chunks.flatten ++ POST))
    (hopen2 : g2.is_open = true)
    (hentries : g2.entries = init ++ [placeEntry e p B])
    (hlen : p.chunks.length = e.chunks.length)
    (hcpos : 0 < e.chunks.length)
    (hfresh : ∀ e' ∈ init, e'.file_id ≠ e.file_id)
    (hdek : e.wrapped_dek = nonceCells dn ++ aeadEncrypt g2.master_key dn
      (aadBytes g2.vault_id e.file_id 0) (keyCells dek))
    (i : Nat) (hi : i < p.chunks.length)
    (hcti : p.chunks.getD i [] = aeadEncrypt dek
      ((e.chunks.getD i default).nonce)
      (aadBytes g2.vault_id e.file_id i) (piece i)) :
    vault_read_chunk g2 F e.file_id i = (.ok, some (piece i)) := by
  subst hB hF
  have hcc : e.chunk_count > 0 := hcpos
  have hplaced : placeEntry e p PRE.length =
      { e with chunks := placeChunks PRE.length e.chunks p.chunks } := by
    unfold placeEntry
    rw [if_pos hcc]
  have hgeom := placeChunks_read POST p.chunks e.chunks PRE i
    (by omega) hi
  unfold vault_read_chunk
  rw [if_neg (by simp [hopen2])]
  rw [findEntry_placed g2 init _ e.file_id hentries
    (by rw [hplaced]) hfresh]
  rw [hplaced]
  dsimp only
  have hrc : ({ e with chunks := placeChunks PRE.length e.chunks p.chunks } : VaultEntry).chunk_count = min e.chunks.length p.chunks.length := by
    have : ({ e with chunks := placeChunks PRE.length e.chunks p.chunks } : VaultEntry).chunk_count = (placeChunks PRE.length e.chunks p.chunks).length := rfl
    rw [this, placeChunks_length]
  rw [if_neg (show ¬ ({ e with chunks := placeChunks PRE.length e.chunks p.chunks } : VaultEntry).chunk_count = 0 from by omega)]
  rw [if_neg (show ¬ i ≥ ({ e with chunks := placeChunks PRE.length e.chunks p.chunks } : VaultEntry).chunk_count from by omega)]
  rw [unwrap_dek_ok g2 { e with chunks := placeChunks PRE.length e.chunks p.chunks } dn dek hdek]
  dsimp only
  have hctlen : (p.chunks.getD i []).length = (piece i).length + VAULT_TAG_LEN := by
    rw [hcti, aeadEncrypt_length]
  have hload : load_blob (PRE ++ (p.chunks.flatten ++ POST))
      ((placeChunks PRE.length e.chunks p.chunks).getD i default).offset
      ((placeChunks PRE.length e.chunks p.chunks).getD i default).length =
      .ok (p.chunks.getD i []) := by
    unfold load_blob
    rw [if_neg (by
      rw [hgeom.1, hctlen]
      have h16 : VAULT_TAG_LEN = 16 := rfl
      omega)]
    rw [if_pos hgeom.2.2.1]
    rw [hgeom.2.2.2]
  rw [hload]
  dsimp only
  rw [if_neg (by
    rw [hgeom.1, hctlen]
    have h16 : VAULT_TAG_LEN = 16 := rfl
    omega)]
  rw [hgeom.2.1]
  rw [hcti]
  rw [vault_aead_decrypt_encrypt]

/-- Reading back all chunks of a freshly placed video entry: each chunk
decrypts to its 1 MiB plaintext piece and the concatenation is the
original byte string. -/
theorem read_chunks_all (g2 : VaultState) (init : List VaultEntry)
    (e : VaultEntry) (p : VaultPayload) (PRE POST F : List Nat)
    (dn dek B cc : Nat) (data : List Nat) (ν : Nat → Nat)
    (hB : B = PRE.length)
    (hF : F = PRE ++ (p.chunks.flatten ++ POST))
    (hopen2 : g2.is_open = true)
    (hentries : g2.entries = init ++ [placeEntry e p B])
    (hfresh : ∀ e' ∈ init, e'.file_id ≠ e.file_id)
    (hdek : e.wrapped_dek = nonceCells dn ++ aeadEncrypt g2.master_key dn
      (aadBytes g2.vault_id e.file_id 0) (keyCells dek))
    (hchE : e.chunks = (List.range cc).map (fun i =>
      ({ offset := 0
         length := ((data.drop (i * VAULT_CHUNK_SIZE)).take
           VAULT_CHUNK_SIZE).length + VAULT_TAG_LEN
         nonce := ν i } : VaultChunk)))
    (hchP : p.chunks = (List.range cc).map (fun i =>
      aeadEncrypt dek (ν i) (aadBytes g2.vault_id e.file_id i)
        ((data.drop (i * VAULT_CHUNK_SIZE)).take VAULT_CHUNK_SIZE)))
    (hccpos : 0 < cc)
    (hbound : data.length ≤ cc * VAULT_CHUNK_SIZE) :
    (∀ i, i < cc → vault_read_chunk g2 F e.file_id i =
      (.ok, some ((data.drop (i * VAULT_CHUNK_SIZE)).take VAULT_CHUNK_SIZE))) ∧
    ((List.range cc).map (fun i =>
      (vault_read_chunk g2 F e.file_id i).2.getD [])).flatten = data := by
  have hall : ∀ i, i < cc → vault_read_chunk g2 F e.file_id i =
      (.ok, some ((data.drop (i * VAULT_CHUNK_SIZE)).take VAULT_CHUNK_SIZE)) := by
    intro i hi
    refine read_chunk_core g2 init e p PRE POST F dn dek B
      (fun i => (data.drop (i * VAULT_CHUNK_SIZE)).take VAULT_CHUNK_SIZE)
      hB hF hopen2 hentries ?_ ?_ hfresh hdek i ?_ ?_
    · rw [hchE, hchP]
      simp
    · rw [hchE]
      simpa using hccpos
    · rw [hchP]
      simpa using hi
    · rw [hchE, hchP, getD_map_range _ cc i hi, getD_map_range _ cc i hi]
  refine ⟨hall, ?_⟩
  rw [show (List.range cc).map (fun i =>
      (vault_read_chunk g2 F e.file_id i).2.getD []) =
      (List.range cc).map (fun i =>
        (data.drop (i * VAULT_CHUNK_SIZE)).take VAULT_CHUNK_SIZE) from
    List.map_congr_left (fun i hi => by
      rw [hall i (by simpa using hi)]
      rfl)]
  exact range_map_chunks_flatten VAULT_CHUNK_SIZE (by decide) cc data hbound

/-! ## Claim C1 — import / read-back round trip -/

/-- C1: on a well-formed open container (header of the recorded size, index
section padded to the stored capacity, data region, trailing hash), importing
a non-empty byte string round-trips. For TEXT and IMAGE the file id returned
by vault_import_file reads back the exact bytes through vault_read_file; for
VIDEO the entry is stored as 1 MiB plaintext chunks and concatenating
vault_read_chunk over [0, chunk_count) yields the exact bytes. This covers
both the in-place fast path and the index-expansion rewrite path of
vault_append_entry. -/
theorem c1_import_roundtrip
    (g : VaultState) (n0 ctLen rng now ty : Nat)
    (hdr ct0 dataR hsh data name mime : List Nat)
    (hopen : g.is_open = true) (hpath : g.path ≠ none)
    (hhdr : hdr.length = g.header_size)
    (hct0 : ct0.length = ctLen)
    (hhsh : hsh.length = VAULT_HASH_LEN)
    (hctb : ctLen < 256 ^ 8)
    (hcoh : ctLen = g.index_capacity + VAULT_TAG_LEN)
    (hicap : 0 < g.index_capacity)
    (hcnt : g.entries.length + 1 ≤ VAULT_INDEX_COUNT_MASK)
    (hwh : write_header_size g = g.header_size)
    (hdata : data ≠ [])
    (hfresh : ∀ e' ∈ g.entries, e'.file_id ≠ rng + 1) :
    ((ty = VAULT_FILE_TYPE_TXT ∨ ty = VAULT_FILE_TYPE_IMG) →
      (vault_import_file g
        (hdr ++ (nonceCells n0 ++ (natToLE 8 ctLen ++ (ct0 ++ (dataR ++ hsh)))))
        data ty name mime rng now).1 = .ok ∧
      (vault_import_file g
        (hdr ++ (nonceCells n0 ++ (natToLE 8 ctLen ++ (ct0 ++ (dataR ++ hsh)))))
        data ty name mime rng now).2.1 = some (rng + 1) ∧
      vault_read_file
        (vault_import_file g
          (hdr ++ (nonceCells n0 ++ (natToLE 8 ctLen ++ (ct0 ++ (dataR ++ hsh)))))
          data ty name mime rng now).2.2.1
        (vault_import_file g
          (hdr ++ (nonceCells n0 ++ (natToLE 8 ctLen ++ (ct0 ++ (dataR ++ hsh)))))
          data ty name mime rng now).2.2.2.1
        (rng + 1) = (.ok, some data)) ∧
    (ty = VAULT_FILE_TYPE_VIDEO →
      (vault_import_file g
        (hdr ++ (nonceCells n0 ++ (natToLE 8 ctLen ++ (ct0 ++ (dataR ++ hsh)))))
        data ty name mime rng now).1 = .ok ∧
      (vault_import_file g
        (hdr ++ (nonceCells n0 ++ (natToLE 8 ctLen ++ (ct0 ++ (dataR ++ hsh)))))
        data ty name mime rng now).2.1 = some (rng + 1) ∧
      (∀ i, i < (data.length + VAULT_CHUNK_SIZE - 1) / VAULT_CHUNK_SIZE →
        vault_read_chunk
          (vault_import_file g
            (hdr ++ (nonceCells n0 ++ (natToLE 8 ctLen ++ (ct0 ++ (dataR ++ hsh)))))
            data ty name mime rng now).2.2.1
          (vault_import_file g
            (hdr ++ (nonceCells n0 ++ (natToLE 8 ctLen ++ (ct0 ++ (dataR ++ hsh)))))
            data ty name mime rng now).2.2.2.1
          (rng + 1) i =
          (.ok, some ((data.drop (i * VAULT_CHUNK_SIZE)).take VAULT_CHUNK_SIZE))) ∧
      ((List.range ((data.length + VAULT_CHUNK_SIZE - 1) / VAULT_CHUNK_SIZE)).map
        (fun i => (vault_read_chunk
          (vault_import_file g
            (hdr ++ (nonceCells n0 ++ (natToLE 8 ctLen ++ (ct0 ++ (dataR ++ hsh)))))
            data ty name mime rng now).2.2.1
          (vault_import_file g
            (hdr ++ (nonceCells n0 ++ (natToLE 8 ctLen ++ (ct0 ++ (dataR ++ hsh)))))
            data ty name mime rng now).2.2.2.1
          (rng + 1) i).2.getD [])).flatten = data) := by
  have h16 : VAULT_TAG_LEN = 16 := rfl
  have h24 : VAULT_NONCE_LEN = 24 := rfl
  have h32 : VAULT_HASH_LEN = 32 := rfl
  constructor
  · -- TEXT / IMAGE
    intro hty
    have hnotvid : ¬ ty = VAULT_FILE_TYPE_VIDEO := by
      rcases hty with h | h <;> (rw [h]; decide)
    unfold vault_import_file
    rw [if_neg (by simp [hopen])]
    rw [if_neg (show ¬ data.length = 0 from by simpa using hdata)]
    rw [if_neg (show ¬ (ty ≠ VAULT_FILE_TYPE_TXT ∧ ty ≠ VAULT_FILE_TYPE_IMG ∧ ty ≠ VAULT_FILE_TYPE_VIDEO) from by
      rcases hty with h | h <;> simp [h])]
    dsimp only
    rw [if_neg hnotvid]
    unfold build_text_image_entry
    dsimp only
    by_cases hcase : g.index_capacity < calculate_index_plaintext_size
      (g.entries ++ [{ file_id := rng + 1, type := ty, created_at := now, name := name, mime := mime, size := data.length, wrapped_dek := nonceCells (rng + 2) ++ aeadEncrypt g.master_key (rng + 2) (aadBytes g.vault_id (rng + 1) 0) (keyCells rng), data_offset := 0, data_length := 0, chunks := [] }])
    · obtain ⟨pt, hptlen, happ⟩ := append_slow_spec g n0 ctLen (rng + 4)
        hdr ct0 dataR hsh
        { file_id := rng + 1, type := ty, created_at := now, name := name, mime := mime, size := data.length, wrapped_dek := nonceCells (rng + 2) ++ aeadEncrypt g.master_key (rng + 2) (aadBytes g.vault_id (rng + 1) 0) (keyCells rng), data_offset := 0, data_length := 0, chunks := [] }
        { data := nonceCells (rng + 3) ++ aeadEncrypt rng (rng + 3) (aadBytes g.vault_id (rng + 1) 0) data, chunks := [] }
        hopen hpath hhdr hct0 hhsh hctb hcoh hicap hcnt rfl hwh hcase
      rw [happ]
      dsimp only
      refine ⟨rfl, rfl, ?_⟩
      have hge := index_choose_capacity_ge
        (calculate_index_plaintext_size (g.entries ++
          [{ file_id := rng + 1, type := ty, created_at := now, name := name, mime := mime, size := data.length, wrapped_dek := nonceCells (rng + 2) ++ aeadEncrypt g.master_key (rng + 2) (aadBytes g.vault_id (rng + 1) 0) (keyCells rng), data_offset := 0, data_length := 0, chunks := [] }]))
        g.index_capacity
      refine read_file_core _
        (g.entries.map (shiftEntry _))
        { file_id := rng + 1, type := ty, created_at := now, name := name, mime := mime, size := data.length, wrapped_dek := nonceCells (rng + 2) ++ aeadEncrypt g.master_key (rng + 2) (aadBytes g.vault_id (rng + 1) 0) (keyCells rng), data_offset := 0, data_length := 0, chunks := [] }
        { data := nonceCells (rng + 3) ++ aeadEncrypt rng (rng + 3) (aadBytes g.vault_id (rng + 1) 0) data, chunks := [] }
        (List.replicate g.header_size 0 ++ (nonceCells (rng + 4) ++
          (natToLE 8 (index_choose_capacity
            (calculate_index_plaintext_size (g.entries ++
              [{ file_id := rng + 1, type := ty, created_at := now, name := name, mime := mime, size := data.length, wrapped_dek := nonceCells (rng + 2) ++ aeadEncrypt g.master_key (rng + 2) (aadBytes g.vault_id (rng + 1) 0) (keyCells rng), data_offset := 0, data_length := 0, chunks := [] }]))
            g.index_capacity + VAULT_TAG_LEN) ++
            (aeadEncrypt g.master_key (rng + 4) [] pt ++ dataR))))
        (List.replicate VAULT_HASH_LEN 0) data _ (rng + 2) (rng + 3) rng _
        ?_ ?_ hopen rfl rfl rfl ?_ rfl
      · simp only [List.length_append, List.length_replicate,
          nonceCells_length, natToLE_length, aeadEncrypt_length, hptlen]
        omega
      · simp [payloadBytesOf, VaultEntry.chunk_count, List.append_assoc]
      · intro a ha
        obtain ⟨b, hb, rfl⟩ := List.mem_map.mp ha
        rw [shiftEntry_file_id]
        exact hfresh b hb
    · obtain ⟨pt, hptlen, happ⟩ := append_fast_spec g n0 ctLen (rng + 4)
        hdr ct0 dataR hsh
        { file_id := rng + 1, type := ty, created_at := now, name := name, mime := mime, size := data.length, wrapped_dek := nonceCells (rng + 2) ++ aeadEncrypt g.master_key (rng + 2) (aadBytes g.vault_id (rng + 1) 0) (keyCells rng), data_offset := 0, data_length := 0, chunks := [] }
        { data := nonceCells (rng + 3) ++ aeadEncrypt rng (rng + 3) (aadBytes g.vault_id (rng + 1) 0) data, chunks := [] }
        hopen hpath hhdr hct0 hhsh hctb hcoh hicap hcnt rfl (by omega)
      rw [happ]
      dsimp only
      refine ⟨rfl, rfl, ?_⟩
      refine read_file_core _ g.entries
        { file_id := rng + 1, type := ty, created_at := now, name := name, mime := mime, size := data.length, wrapped_dek := nonceCells (rng + 2) ++ aeadEncrypt g.master_key (rng + 2) (aadBytes g.vault_id (rng + 1) 0) (keyCells rng), data_offset := 0, data_length := 0, chunks := [] }
        { data := nonceCells (rng + 3) ++ aeadEncrypt rng (rng + 3) (aadBytes g.vault_id (rng + 1) 0) data, chunks := [] }
        (hdr ++ (nonceCells (rng + 4) ++ (natToLE 8 ctLen ++
          (aeadEncrypt g.master_key (rng + 4) [] pt ++ dataR))))
        (List.replicate VAULT_HASH_LEN 0) data _ (rng + 2) (rng + 3) rng _
        ?_ ?_ hopen rfl rfl rfl hfresh rfl
      · simp only [List.length_append, hhdr, nonceCells_length,
          natToLE_length, aeadEncrypt_length, hptlen]
        omega
      · simp [payloadBytesOf, VaultEntry.chunk_count, List.append_assoc]
  · -- VIDEO
    intro hty
    unfold vault_import_file
    rw [if_neg (by simp [hopen])]
    rw [if_neg (show ¬ data.length = 0 from by simpa using hdata)]
    rw [if_neg (show ¬ (ty ≠ VAULT_FILE_TYPE_TXT ∧ ty ≠ VAULT_FILE_TYPE_IMG ∧ ty ≠ VAULT_FILE_TYPE_VIDEO) from by simp [hty])]
    dsimp only
    rw [if_pos hty]
    unfold build_video_entry
    dsimp only
    have hccpos : 0 < (data.length + VAULT_CHUNK_SIZE - 1) / VAULT_CHUNK_SIZE := by
      have hlp : 0 < data.length := List.length_pos.mpr hdata
      have hch : VAULT_CHUNK_SIZE = 1024 * 1024 := rfl
      refine (Nat.le_div_iff_mul_le (by decide)).mpr ?_
      omega
    have hbound : data.length ≤
        ((data.length + VAULT_CHUNK_SIZE - 1) / VAULT_CHUNK_SIZE) *
          VAULT_CHUNK_SIZE :=
      lt_ceil_mul data.length VAULT_CHUNK_SIZE (by decide)
    by_cases hcase : g.index_capacity < calculate_index_plaintext_size
      (g.entries ++ [{ file_id := rng + 1, type := VAULT_FILE_TYPE_VIDEO, created_at := now, name := name, mime := mime, size := data.length, wrapped_dek := nonceCells (rng + 2) ++ aeadEncrypt g.master_key (rng + 2) (aadBytes g.vault_id (rng + 1) 0) (keyCells rng), data_offset := 0, data_length := 0, chunks := (List.range ((data.length + VAULT_CHUNK_SIZE - 1) / VAULT_CHUNK_SIZE)).map (fun i => ({ offset := 0, length := ((data.drop (i * VAULT_CHUNK_SIZE)).take VAULT_CHUNK_SIZE).length + VAULT_TAG_LEN, nonce := rng + 3 + i } : VaultChunk)) }])
    · obtain ⟨pt, hptlen, happ⟩ := append_slow_spec g n0 ctLen
        (rng + 3 + ((data.length + VAULT_CHUNK_SIZE - 1) / VAULT_CHUNK_SIZE)) hdr ct0 dataR hsh
        { file_id := rng + 1, type := VAULT_FILE_TYPE_VIDEO, created_at := now, name := name, mime := mime, size := data.length, wrapped_dek := nonceCells (rng + 2) ++ aeadEncrypt g.master_key (rng + 2) (aadBytes g.vault_id (rng + 1) 0) (keyCells rng), data_offset := 0, data_length := 0, chunks := (List.range ((data.length + VAULT_CHUNK_SIZE - 1) / VAULT_CHUNK_SIZE)).map (fun i => ({ offset := 0, length := ((data.drop (i * VAULT_CHUNK_SIZE)).take VAULT_CHUNK_SIZE).length + VAULT_TAG_LEN, nonce := rng + 3 + i } : VaultChunk)) }
        { data := [], chunks := (List.range ((data.length + VAULT_CHUNK_SIZE - 1) / VAULT_CHUNK_SIZE)).map (fun i => aeadEncrypt rng (rng + 3 + i) (aadBytes g.vault_id (rng + 1) i) ((data.drop (i * VAULT_CHUNK_SIZE)).take VAULT_CHUNK_SIZE)) }
        hopen hpath hhdr hct0 hhsh hctb hcoh hicap hcnt (by simp) hwh hcase
      rw [happ]
      dsimp only
      have hge := index_choose_capacity_ge
        (calculate_index_plaintext_size (g.entries ++ [{ file_id := rng + 1, type := VAULT_FILE_TYPE_VIDEO, created_at := now, name := name, mime := mime, size := data.length, wrapped_dek := nonceCells (rng + 2) ++ aeadEncrypt g.master_key (rng + 2) (aadBytes g.vault_id (rng + 1) 0) (keyCells rng), data_offset := 0, data_length := 0, chunks := (List.range ((data.length + VAULT_CHUNK_SIZE - 1) / VAULT_CHUNK_SIZE)).map (fun i => ({ offset := 0, length := ((data.drop (i * VAULT_CHUNK_SIZE)).take VAULT_CHUNK_SIZE).length + VAULT_TAG_LEN, nonce := rng + 3 + i } : VaultChunk)) }]))
        g.index_capacity
      refine ⟨rfl, rfl,
        read_chunks_all _
          (g.entries.map (shiftEntry ((index_choose_capacity (calculate_index_plaintext_size (g.entries ++ [{ file_id := rng + 1, type := VAULT_FILE_TYPE_VIDEO, created_at := now, name := name, mime := mime, size := data.length, wrapped_dek := nonceCells (rng + 2) ++ aeadEncrypt g.master_key (rng + 2) (aadBytes g.vault_id (rng + 1) 0) (keyCells rng), data_offset := 0, data_length := 0, chunks := (List.range ((data.length + VAULT_CHUNK_SIZE - 1) / VAULT_CHUNK_SIZE)).map (fun i => ({ offset := 0, length := ((data.drop (i * VAULT_CHUNK_SIZE)).take VAULT_CHUNK_SIZE).length + VAULT_TAG_LEN, nonce := rng + 3 + i } : VaultChunk)) }])) g.index_capacity + VAULT_TAG_LEN - ctLen : Nat) : Int)))
          { file_id := rng + 1, type := VAULT_FILE_TYPE_VIDEO, created_at := now, name := name, mime := mime, size := data.length, wrapped_dek := nonceCells (rng + 2) ++ aeadEncrypt g.master_key (rng + 2) (aadBytes g.vault_id (rng + 1) 0) (keyCells rng), data_offset := 0, data_length := 0, chunks := (List.range ((data.length + VAULT_CHUNK_SIZE - 1) / VAULT_CHUNK_SIZE)).map (fun i => ({ offset := 0, length := ((data.drop (i * VAULT_CHUNK_SIZE)).take VAULT_CHUNK_SIZE).length + VAULT_TAG_LEN, nonce := rng + 3 + i } : VaultChunk)) }
          { data := [], chunks := (List.range ((data.length + VAULT_CHUNK_SIZE - 1) / VAULT_CHUNK_SIZE)).map (fun i => aeadEncrypt rng (rng + 3 + i) (aadBytes g.vault_id (rng + 1) i) ((data.drop (i * VAULT_CHUNK_SIZE)).take VAULT_CHUNK_SIZE)) }
          (List.replicate g.header_size 0 ++ (nonceCells (rng + 3 + ((data.length + VAULT_CHUNK_SIZE - 1) / VAULT_CHUNK_SIZE)) ++
            (natToLE 8 (index_choose_capacity (calculate_index_plaintext_size (g.entries ++ [{ file_id := rng + 1, type := VAULT_FILE_TYPE_VIDEO, created_at := now, name := name, mime := mime, size := data.length, wrapped_dek := nonceCells (rng + 2) ++ aeadEncrypt g.master_key (rng + 2) (aadBytes g.vault_id (rng + 1) 0) (keyCells rng), data_offset := 0, data_length := 0, chunks := (List.range ((data.length + VAULT_CHUNK_SIZE - 1) / VAULT_CHUNK_SIZE)).map (fun i => ({ offset := 0, length := ((data.drop (i * VAULT_CHUNK_SIZE)).take VAULT_CHUNK_SIZE).length + VAULT_TAG_LEN, nonce := rng + 3 + i } : VaultChunk)) }])) g.index_capacity + VAULT_TAG_LEN) ++
              (aeadEncrypt g.master_key (rng + 3 + ((data.length + VAULT_CHUNK_SIZE - 1) / VAULT_CHUNK_SIZE)) [] pt ++ dataR))))
          (List.replicate VAULT_HASH_LEN 0) _ (rng + 2) rng
          (g.header_size + (VAULT_NONCE_LEN + 8 + ctLen) + dataR.length +
            (index_choose_capacity (calculate_index_plaintext_size (g.entries ++ [{ file_id := rng + 1, type := VAULT_FILE_TYPE_VIDEO, created_at := now, name := name, mime := mime, size := data.length, wrapped_dek := nonceCells (rng + 2) ++ aeadEncrypt g.master_key (rng + 2) (aadBytes g.vault_id (rng + 1) 0) (keyCells rng), data_offset := 0, data_length := 0, chunks := (List.range ((data.length + VAULT_CHUNK_SIZE - 1) / VAULT_CHUNK_SIZE)).map (fun i => ({ offset := 0, length := ((data.drop (i * VAULT_CHUNK_SIZE)).take VAULT_CHUNK_SIZE).length + VAULT_TAG_LEN, nonce := rng + 3 + i } : VaultChunk)) }])) g.index_capacity + VAULT_TAG_LEN - ctLen))
          ((data.length + VAULT_CHUNK_SIZE - 1) / VAULT_CHUNK_SIZE) data (fun i => rng + 3 + i)
          ?_ ?_ ?_ ?_ ?_ ?_ ?_ ?_ hccpos hbound⟩
      · simp only [List.length_append, List.length_replicate,
          nonceCells_length, natToLE_length, aeadEncrypt_length, hptlen]
        omega
      · simp [payloadBytesOf, VaultEntry.chunk_count, hccpos,
          List.append_assoc]
      · exact hopen
      · rfl
      · intro a ha
        obtain ⟨b, hb, rfl⟩ := List.mem_map.mp ha
        rw [shiftEntry_file_id]
        exact hfresh b hb
      · rfl
      · rfl
      · rfl
    · obtain ⟨pt, hptlen, happ⟩ := append_fast_spec g n0 ctLen
        (rng + 3 + ((data.length + VAULT_CHUNK_SIZE - 1) / VAULT_CHUNK_SIZE)) hdr ct0 dataR hsh
        { file_id := rng + 1, type := VAULT_FILE_TYPE_VIDEO, created_at := now, name := name, mime := mime, size := data.length, wrapped_dek := nonceCells (rng + 2) ++ aeadEncrypt g.master_key (rng + 2) (aadBytes g.vault_id (rng + 1) 0) (keyCells rng), data_offset := 0, data_length := 0, chunks := (List.range ((data.length + VAULT_CHUNK_SIZE - 1) / VAULT_CHUNK_SIZE)).map (fun i => ({ offset := 0, length := ((data.drop (i * VAULT_CHUNK_SIZE)).take VAULT_CHUNK_SIZE).length + VAULT_TAG_LEN, nonce := rng + 3 + i } : VaultChunk)) }
        { data := [], chunks := (List.range ((data.length + VAULT_CHUNK_SIZE - 1) / VAULT_CHUNK_SIZE)).map (fun i => aeadEncrypt rng (rng + 3 + i) (aadBytes g.vault_id (rng + 1) i) ((data.drop (i * VAULT_CHUNK_SIZE)).take VAULT_CHUNK_SIZE)) }
        hopen hpath hhdr hct0 hhsh hctb hcoh hicap hcnt (by simp) (by omega)
      rw [happ]
      dsimp only
      refine ⟨rfl, rfl,
        read_chunks_all _ g.entries
          { file_id := rng + 1, type := VAULT_FILE_TYPE_VIDEO, created_at := now, name := name, mime := mime, size := data.length, wrapped_dek := nonceCells (rng + 2) ++ aeadEncrypt g.master_key (rng + 2) (aadBytes g.vault_id (rng + 1) 0) (keyCells rng), data_offset := 0, data_length := 0, chunks := (List.range ((data.length + VAULT_CHUNK_SIZE - 1) / VAULT_CHUNK_SIZE)).map (fun i => ({ offset := 0, length := ((data.drop (i * VAULT_CHUNK_SIZE)).take VAULT_CHUNK_SIZE).length + VAULT_TAG_LEN, nonce := rng + 3 + i } : VaultChunk)) }
          { data := [], chunks := (List.range ((data.length + VAULT_CHUNK_SIZE - 1) / VAULT_CHUNK_SIZE)).map (fun i => aeadEncrypt rng (rng + 3 + i) (aadBytes g.vault_id (rng + 1) i) ((data.drop (i * VAULT_CHUNK_SIZE)).take VAULT_CHUNK_SIZE)) }
          (hdr ++ (nonceCells (rng + 3 + ((data.length + VAULT_CHUNK_SIZE - 1) / VAULT_CHUNK_SIZE)) ++ (natToLE 8 ctLen ++
            (aeadEncrypt g.master_key (rng + 3 + ((data.length + VAULT_CHUNK_SIZE - 1) / VAULT_CHUNK_SIZE)) [] pt ++ dataR))))
          (List.replicate VAULT_HASH_LEN 0) _ (rng + 2) rng
          (g.header_size + (VAULT_NONCE_LEN + 8 + ctLen) + dataR.length)
          ((data.length + VAULT_CHUNK_SIZE - 1) / VAULT_CHUNK_SIZE) data (fun i => rng + 3 + i)
          ?_ ?_ ?_ ?_ ?_ ?_ ?_ ?_ hccpos hbound⟩
      · simp only [List.length_append, hhdr, nonceCells_length,
          natToLE_length, aeadEncrypt_length, hptlen]
        omega
      · simp [payloadBytesOf, VaultEntry.chunk_count, hccpos,
          List.append_assoc]
      · exact hopen
      · rfl
      · exact hfresh
      · rfl
      · rfl
      · rfl

def c1g : VaultState :=
  { baseState with is_open := true
                   path := some 7
                   master_key := 5
                   vault_id := 6
                   index_capacity := 200
                   header_is_journal := true
                   header_size := 284 }

def c1Hdr : List Nat := List.replicate 284 0

def c1Ct : List Nat := List.replicate 216 0

def c1Hsh : List Nat := List.replicate 32 0

theorem c1_import_roundtrip_witness :
    c1g.is_open = true ∧ ([9] : List Nat) ≠ [] ∧
    vault_read_file
      (vault_import_file c1g
        (c1Hdr ++ (nonceCells 0 ++ (natToLE 8 216 ++ (c1Ct ++ ([] ++ c1Hsh)))))
        [9] VAULT_FILE_TYPE_TXT [95] [109] 100 0).2.2.1
      (vault_import_file c1g
        (c1Hdr ++ (nonceCells 0 ++ (natToLE 8 216 ++ (c1Ct ++ ([] ++ c1Hsh)))))
        [9] VAULT_FILE_TYPE_TXT [95] [109] 100 0).2.2.2.1
      101 = (.ok, some [9]) ∧
    ((List.range 1).map (fun i => (vault_read_chunk
      (vault_import_file c1g
        (c1Hdr ++ (nonceCells 0 ++ (natToLE 8 216 ++ (c1Ct ++ ([] ++ c1Hsh)))))
        [9] VAULT_FILE_TYPE_VIDEO [95] [109] 100 0).2.2.1
      (vault_import_file c1g
        (c1Hdr ++ (nonceCells 0 ++ (natToLE 8 216 ++ (c1Ct ++ ([] ++ c1Hsh)))))
        [9] VAULT_FILE_TYPE_VIDEO [95] [109] 100 0).2.2.2.1
      101 i).2.getD [])).flatten = [9] :=
  ⟨rfl, by decide,
   ((c1_import_roundtrip c1g 0 216 100 0 VAULT_FILE_TYPE_TXT c1Hdr c1Ct []
      c1Hsh [9] [95] [109] rfl (by decide) (by decide) (by decide) (by decide)
      (by decide) (by decide) (by decide) (by decide) rfl (by decide)
      (by intro a ha; rw [show c1g.entries = [] from rfl] at ha; simp at ha)).1
      (Or.inl rfl)).2.2,
   ((c1_import_roundtrip c1g 0 216 100 0 VAULT_FILE_TYPE_VIDEO c1Hdr c1Ct []
      c1Hsh [9] [95] [109] rfl (by decide) (by decide) (by decide) (by decide)
      (by decide) (by decide) (by decide) (by decide) rfl (by decide)
      (by intro a ha; rw [show c1g.entries = [] from rfl] at ha; simp at ha)).2
      rfl).2.2.2⟩

/-! ## vault_save_index_only (vault_container.c:2064-2368)

The failure oracle tempOk models whether the slow path's temp-file
creation succeeds; every later I/O step is merged into it, since the
observable effect of any of those failures is the same: an error return
after the in-memory offsets were already shifted. -/

/-- The slow path of vault_save_index_only: the entry offsets are shifted
in place BEFORE the temp-file rebuild is attempted, and nothing restores
them when it fails. -/
def saveSlowPath (g : VaultState) (file : List Nat) (rng : Nat)
    (tempOk : Bool) (old_iss new_capacity : Nat) :
    Vres × VaultState × List Nat × Nat :=
  let new_iss := VAULT_NONCE_LEN + 8 + (new_capacity + VAULT_TAG_LEN)
  let delta : Int := (new_iss : Int) - (old_iss : Int)
  let gShifted := { g with entries := g.entries.map (shiftEntry delta) }
  match serialize_index gShifted.entries new_capacity with
  | .error e => (e, gShifted, file, rng)
  | .ok index_pt =>
      let ct_len := index_pt.length + VAULT_TAG_LEN
      let index_ct := aeadEncrypt gShifted.master_key rng [] index_pt
      if ¬tempOk then (.ioErr, gShifted, file, rng)
      else
        let content_size :=
          if file.length > VAULT_HASH_LEN then file.length - VAULT_HASH_LEN
          else file.length
        let data_start := g.header_size + old_iss
        let data_size :=
          if content_size > data_start then content_size - data_start else 0
        let newFile := List.replicate (write_header_size g) 0 ++
          nonceCells rng ++ natToLE 8 ct_len ++ index_ct ++
          listSlice file data_start data_size ++
          List.replicate VAULT_HASH_LEN 0
        (.ok,
         { gShifted with
            header_size := write_header_size g
            index_capacity := index_pt.length
            index_is_padded := true },
         newFile, rng + 1)

/-- vault_save_index_only: re-serialize the in-memory entries; in place when
the capacity and stored ct length line up, otherwise through saveSlowPath. -/
def vault_save_index_only (g : VaultState) (file : List Nat) (rng : Nat)
    (tempOk : Bool) : Vres × VaultState × List Nat × Nat :=
  if ¬g.is_open ∨ g.path = none then (.notOpen, g, file, rng)
  else
    let required := calculate_index_plaintext_size g.entries
    let header_size := g.header_size
    if file.length < header_size + VAULT_NONCE_LEN + 8 then
      (.ioErr, g, file, rng)
    else
      let old_idx_ct_len := readLE file (header_size + VAULT_NONCE_LEN) 8
      let old_iss := VAULT_NONCE_LEN + 8 + old_idx_ct_len
      let old_capacity :=
        if old_idx_ct_len > VAULT_TAG_LEN then old_idx_ct_len - VAULT_TAG_LEN
        else 0
      let capacity0 :=
        if g.index_capacity > 0 then g.index_capacity else old_capacity
      let capacity :=
        if old_capacity > 0 ∧ old_capacity ≠ capacity0 then old_capacity
        else capacity0
      if capacity < required then
        saveSlowPath g file rng tempOk old_iss
          (index_choose_capacity required capacity)
      else
        match serialize_index g.entries capacity with
        | .error e => (e, g, file, rng)
        | .ok index_pt =>
            let ct_len := index_pt.length + VAULT_TAG_LEN
            if old_idx_ct_len ≠ ct_len then
              saveSlowPath g file rng tempOk old_iss
                (index_choose_capacity required capacity)
            else
              let index_ct := aeadEncrypt g.master_key rng [] index_pt
              let f1 := writeAt file header_size
                (nonceCells rng ++ natToLE 8 ct_len ++ index_ct)
              (.ok,
               { g with index_capacity := capacity, index_is_padded := true },
               f1, rng + 1)

/-! ## vault_rename_file (vault_index.c:342-399) -/

/-- "__folder_map__" as bytes. -/
def NAME_FOLDER_MAP : List Nat :=
  [95, 95, 102, 111, 108, 100, 101, 114, 95, 109, 97, 112, 95, 95]

/-- "__folder_map__.tmp" as bytes. -/
def NAME_FOLDER_MAP_TMP : List Nat := NAME_FOLDER_MAP ++ [46, 116, 109, 112]

/-- "__vault_title__" as bytes. -/
def NAME_VAULT_TITLE : List Nat :=
  [95, 95, 118, 97, 117, 108, 116, 95, 116, 105, 116, 108, 101, 95, 95]

/-- "__vault_title__.tmp" as bytes. -/
def NAME_VAULT_TITLE_TMP : List Nat := NAME_VAULT_TITLE ++ [46, 116, 109, 112]

/-- is_allowed_system_name (vault_index.c:54-61). -/
def is_allowed_system_name (name : List Nat) : Bool :=
  name == NAME_FOLDER_MAP || name == NAME_FOLDER_MAP_TMP ||
  name == NAME_VAULT_TITLE || name == NAME_VAULT_TITLE_TMP

/-- The in-place rename of the first entry whose file_id matches. -/
def renameFirst (l : List VaultEntry) (fid : Nat) (nm : List Nat) :
    List VaultEntry :=
  match l with
  | [] => []
  | e :: es =>
      if e.file_id = fid then { e with name := nm } :: es
      else e :: renameFirst es fid nm

/-- vault_rename_file: the open/param gates, the reserved-name boundary
checks, then the in-place rename followed by vault_save_index_only
(whose result is returned). -/
def vault_rename_file (g : VaultState) (file : List Nat) (fileId : Nat)
    (new_name : List Nat) (rng : Nat) (tempOk : Bool) :
    Vres × VaultState × List Nat × Nat :=
  if ¬g.is_open then (.notOpen, g, file, rng)
  else if new_name.length = 0 ∨ new_name.length > 4096 then
    (.invalidParam, g, file, rng)
  else
    let new_is_system := is_allowed_system_name new_name
    if new_name.take 2 = [95, 95] ∧ ¬new_is_system then
      (.invalidParam, g, file, rng)
    else
      match findEntry g fileId with
      | none => (.notFound, g, file, rng)
      | some entry =>
          let current_is_system := is_allowed_system_name entry.name
          if entry.name.take 2 = [95, 95] ∧
              (¬current_is_system ∨ ¬new_is_system) then
            (.invalidParam, g, file, rng)
          else if ¬(entry.name.take 2 = [95, 95]) ∧ new_is_system then
            (.invalidParam, g, file, rng)
          else
            let g1 := { g with entries := renameFirst g.entries fileId new_name }
            vault_save_index_only g1 file rng tempOk

/-! ## Claim C2 — failed saves must not mutate the handle -/

def c2Entry : VaultEntry :=
  { file_id := 1
    type := 1
    created_at := 0
    name := List.replicate 150 97
    mime := []
    size := 50
    wrapped_dek := []
    data_offset := 340
    data_length := 50
    chunks := [] }

def c2g : VaultState :=
  { baseState with is_open := true
                   path := some 7
                   master_key := 5
                   vault_id := 6
                   index_capacity := 200
                   header_is_journal := true
                   header_size := 284
                   entries := [c2Entry] }

def c2File : List Nat :=
  List.replicate 284 0 ++ nonceCells 0 ++ natToLE 8 216 ++
  List.replicate 216 0 ++ List.replicate 50 1 ++ List.replicate 32 0

/-- C2: on this vault the index has outgrown its capacity (required 213 >
capacity 200), so vault_save_index_only takes its slow path, which first
shifts every entry offset by the index-section delta (65336) in the live
handle and only then attempts the temp-file rebuild; when that attempt
fails the function returns VAULT_ERR_IO with the on-disk container
untouched but the in-memory entry offsets left shifted (340 → 65676) —
the handle no longer matches the container. -/
theorem c2_save_failure_shifts_offsets :
    (vault_save_index_only c2g c2File 100 false).1 = .ioErr ∧
    (vault_save_index_only c2g c2File 100 false).2.2.1 = c2File ∧
    (vault_save_index_only c2g c2File 100 false).2.1.entries =
      [{ c2Entry with data_offset := 65676 }] ∧
    (vault_save_index_only c2g c2File 100 false).2.1.entries ≠
      c2g.entries := by
  refine ⟨rfl, rfl, rfl, ?_⟩
  decide

/-! ## Claim C8 — reserved-name boundary -/

def c8g : VaultState :=
  { baseState with is_open := true
                   path := some 7
                   master_key := 5
                   vault_id := 6
                   index_capacity := 200
                   header_is_journal := true
                   header_size := 284 }

def c8File : List Nat :=
  List.replicate 284 0 ++ nonceCells 0 ++ natToLE 8 216 ++
  List.replicate 216 0 ++ List.replicate 32 0

/-- C8 counterexample: the reserved, non-allow-listed name "__x"
([95, 95, 120]) is accepted by vault_import_file — the import path has no
name check at all, so the create half of the claimed boundary enforcement
is absent. -/
theorem c8_counterexample :
    ([95, 95, 120] : List Nat).take 2 = [95, 95] ∧
    is_allowed_system_name [95, 95, 120] = false ∧
    (vault_import_file c8g c8File [9] VAULT_FILE_TYPE_TXT [95, 95, 120]
      [109] 100 0).1 = .ok ∧
    (vault_import_file c8g c8File [9] VAULT_FILE_TYPE_TXT [95, 95, 120]
      [109] 100 0).2.1 = some 101 :=
  ⟨rfl, rfl, rfl, rfl⟩

/-- C8 (amended): only vault_rename_file enforces the reserved-name
boundary: renaming to a name starting "__" outside the allow-list,
renaming an entry whose current name starts "__" to any non-allow-listed
name, and renaming an entry whose name does not start "__" to an
allow-listed system name all return invalid-param and leave the handle
and container untouched; vault_import_file performs no name check and
accepts a reserved non-allow-listed name. -/
theorem c8_name_boundary (g : VaultState) (file : List Nat)
    (fileId rng : Nat) (tempOk : Bool) (nm : List Nat)
    (hopen : g.is_open = true)
    (hlen0 : nm.length ≠ 0) (hlen4096 : nm.length ≤ 4096) :
    (nm.take 2 = [95, 95] → is_allowed_system_name nm = false →
      vault_rename_file g file fileId nm rng tempOk =
        (.invalidParam, g, file, rng)) ∧
    (∀ entry, findEntry g fileId = some entry →
      entry.name.take 2 = [95, 95] →
      ¬ (is_allowed_system_name entry.name = true ∧
         is_allowed_system_name nm = true) →
      vault_rename_file g file fileId nm rng tempOk =
        (.invalidParam, g, file, rng)) ∧
    (∀ entry, findEntry g fileId = some entry →
      ¬ entry.name.take 2 = [95, 95] →
      is_allowed_system_name nm = true →
      vault_rename_file g file fileId nm rng tempOk =
        (.invalidParam, g, file, rng)) ∧
    (vault_import_file c8g c8File [9] VAULT_FILE_TYPE_TXT [95, 95, 120]
      [109] 100 0).1 = .ok := by
  refine ⟨?_, ?_, ?_, rfl⟩
  · intro h1 h2
    unfold vault_rename_file
    rw [if_neg (by simp [hopen])]
    rw [if_neg (by omega)]
    dsimp only
    rw [if_pos ⟨h1, by simp [h2]⟩]
  · intro entry hfind h1 h2
    unfold vault_rename_file
    rw [if_neg (by simp [hopen])]
    rw [if_neg (by omega)]
    dsimp only
    by_cases hnew2 : nm.take 2 = [95, 95] ∧ ¬ is_allowed_system_name nm = true
    · rw [if_pos hnew2]
    · rw [if_neg hnew2]
      rw [hfind]
      dsimp only
      rw [if_pos ⟨h1, not_and_or.mp h2⟩]
  · intro entry hfind h1 h2
    unfold vault_rename_file
    rw [if_neg (by simp [hopen])]
    rw [if_neg (by omega)]
    dsimp only
    rw [if_neg (show ¬ (nm.take 2 = [95, 95] ∧
        ¬ is_allowed_system_name nm = true) from by simp [h2])]
    rw [hfind]
    dsimp only
    rw [if_neg (show ¬ (entry.name.take 2 = [95, 95] ∧
        (¬ is_allowed_system_name entry.name = true ∨
         ¬ is_allowed_system_name nm = true)) from by simp [h1])]
    rw [if_pos ⟨h1, h2⟩]

/-- A vault holding one entry whose name "__z" is reserved but not
allow-listed (such entries are creatable: see the import counterexample). -/
def c8gR : VaultState :=
  { c8g with entries := [{ file_id := 2, type := 1, created_at := 0, name := [95, 95, 122], mime := [], size := 1, wrapped_dek := [], data_offset := 500, data_length := 1, chunks := [] }] }

theorem c8_name_boundary_witness :
    c8g.is_open = true ∧ ([95, 95, 121] : List Nat).length ≠ 0 ∧
    ([95, 95, 121] : List Nat).length ≤ 4096 ∧
    vault_rename_file c8g c8File 1 [95, 95, 121] 100 true =
      (.invalidParam, c8g, c8File, 100) ∧
    vault_rename_file c8gR c8File 2 NAME_FOLDER_MAP 100 true =
      (.invalidParam, c8gR, c8File, 100) :=
  ⟨rfl, by decide, by decide,
   (c8_name_boundary c8g c8File 1 100 true [95, 95, 121] rfl (by decide)
     (by decide)).1 rfl rfl,
   (c8_name_boundary c8gR c8File 2 100 true NAME_FOLDER_MAP rfl (by decide)
     (by decide)).2.1
     { file_id := 2, type := 1, created_at := 0, name := [95, 95, 122], mime := [], size := 1, wrapped_dek := [], data_offset := 500, data_length := 1, chunks := [] }
     rfl rfl (by decide)⟩

/-! ## Claim C10 — a failed open leaves a partially initialised handle -/

theorem vault_close_noop (gx : VaultState) (h : gx.is_open = false) :
    vault_close gx = gx := by
  unfold vault_close
  rw [h]
  simp

/-- The correct passphrase of the C10 vault. -/
def c10Pass : List Nat := List.replicate 12 3

/-- The wrapped master key (MK 7) of the C10 vault, under the KEK derived
from c10Pass and salt 3, bound to vault_id 9. -/
def c10Wrapped : List Nat :=
  nonceCells 11 ++ aeadEncrypt (vault_kdf_derive_with_params c10Pass 3) 11
    (idCells 9) (keyCells 7)

def c10Slot : JournalSlot :=
  journal_fill_slot 1 9 3 VAULT_KDF_MEM_LOW VAULT_KDF_ITER_LOW
    VAULT_KDF_PARALLEL_LOW c10Wrapped

def c10EmptySlot : JournalSlot := default

def c10Super : JournalSuper :=
  mkStampedSuper VAULT_JOURNAL_MAGIC VAULT_VERSION SIZEOF_JOURNAL_SLOT
    VAULT_JOURNAL_SLOT_COUNT 0

/-- An index section whose stored ct_len is 101 MiB, above the 100 MiB
sanity cap: read_index fails with CORRUPTED after the MK is already
unwrapped into the handle. -/
def c10Rest : List Nat := nonceCells 5 ++ natToLE 8 (101 * 1024 * 1024)

def c10Disk : DiskImage :=
  .journalDisk ⟨c10Super, [c10Slot, c10EmptySlot]⟩ c10Rest

/-- C10: opening this valid-header vault with the correct passphrase fails
with CORRUPTED at the index sanity check, yet the returned handle still
holds the unwrapped master key (7), the salt (3), the vault id (9), the
wrapped MK and the strdup-ed path, with is_open = 0 — the vault_close()
on the failure path was a no-op because is_open was still 0. -/
theorem c10_open_partial_state :
    (vault_open baseState c10Disk c10Pass 77 1000).1 = .corrupted ∧
    (vault_open baseState c10Disk c10Pass 77 1000).2.is_open = false ∧
    (vault_open baseState c10Disk c10Pass 77 1000).2.master_key = 7 ∧
    (vault_open baseState c10Disk c10Pass 77 1000).2.salt = 3 ∧
    (vault_open baseState c10Disk c10Pass 77 1000).2.vault_id = 9 ∧
    (vault_open baseState c10Disk c10Pass 77 1000).2.path = some 77 ∧
    (vault_open baseState c10Disk c10Pass 77 1000).2.wrapped_mk = c10Wrapped := by
  have hsuperval : journal_validate_super c10Super :=
    ⟨rfl, rfl, rfl, rfl, mkStampedSuper_crc _ _ _ _ _⟩
  have hsuper : journal_read_super c10Super = .ok c10Super := by
    unfold journal_read_super
    rw [if_pos hsuperval]
  have hslotok : slotOk c10Slot :=
    ⟨by decide, rfl, mkStampedSlot_crc _ _ _ _ _ _ _ _⟩
  have hreadA : journal_read_slot c10Slot = .ok c10Slot :=
    journal_read_slot_of_ok _ hslotok
  have hreadB : journal_read_slot c10EmptySlot = .error .notFound := by
    unfold journal_read_slot
    rw [if_pos (show c10EmptySlot.seq = 0 from rfl)]
  have hselect : journal_select_slot [c10Slot, c10EmptySlot] =
      .ok (c10Slot, 0) := by
    unfold journal_select_slot
    rw [selectLoop_cons_ok_none _ _ _ _ hreadA,
      selectLoop_cons_err _ _ _ _ _ hreadB]
    rfl
  have hkdf : validate_kdf_params c10Slot.kdf_mem c10Slot.kdf_iter
      c10Slot.kdf_parallel = true := by decide
  have hunwrap : unwrapMK c10Pass c10Slot.vault_id c10Slot.kdf_salt
      c10Slot.wrapped_mk = .ok (keyCells 7) :=
    unwrapMK_encrypt c10Pass 9 3 11 7
  have hread_index : ∀ gx : VaultState, read_index gx c10Rest =
      (.corrupted, gx) := by
    intro gx
    unfold read_index
    dsimp only
    rw [if_neg (by decide), if_pos (by decide)]
  unfold c10Disk vault_open
  rw [if_neg (by decide)]
  dsimp only
  rw [hsuper]
  dsimp only
  rw [hselect]
  dsimp only
  rw [hkdf]
  rw [if_neg (by simp)]
  rw [hunwrap]
  dsimp only
  rw [hread_index]
  dsimp only
  rw [vault_close_noop _ rfl]
  exact ⟨rfl, rfl, rfl, rfl, rfl, rfl, rfl⟩

end NoLeak
